import Mathlib

/-!
Verification development for the awebox variable-schema and validation core.

The Python sources under `awebox/` are shallowly embedded:
* Python `str` values become `List Char` (`PyStr`); `str(n)` for a natural
  number becomes `natStr` (decimal digits via `Nat.toDigits`).
* Python exceptions become an explicit `PyError` value through `Except`.
* Python floats appearing in the bound tables become `EFloat`, an exact
  extended-rational model (finite rational, plus infinities and NaN);
  float division by zero raises `ZeroDivisionError`, as in Python.
* Python dicts become association lists (iteration order = insertion order)
  or, where only lookup matters, functions into `Option`.
-/

/-- Python strings, modelled as lists of characters. -/
abbrev PyStr := List Char

/-- Coerce a Lean string literal to the `PyStr` model. -/
def pstr (s : String) : PyStr := s.data

/-- `str(n)` for a natural number: decimal digit characters. -/
def natStr (n : Nat) : PyStr := Nat.toDigits 10 n

/-- The Python exception kinds raised (or discussed by the specification)
in the embedded fragment.  `valueError` carries the argument strings given
to the `ValueError` constructor. -/
inductive PyError where
  | valueError (args : List PyStr)
  | zeroDivisionError
  | keyError (key : PyStr)
  | configurationError (msg : PyStr)
  deriving DecidableEq

/-- An exact model of the Python float values flowing through the bound
tables: a finite value (exact rational), the two infinities (`cas.inf` is
the float infinity), or NaN. -/
inductive EFloat where
  | val (q : ℚ)
  | inf
  | ninf
  | nan
  deriving DecidableEq

/-- Python float division.  Division by (exactly) zero raises
`ZeroDivisionError`; otherwise the IEEE special values propagate. -/
def pydiv (a b : EFloat) : Except PyError EFloat :=
  if b = EFloat.val 0 then .error .zeroDivisionError
  else
    match a, b with
    | .val x, .val y => .ok (.val (x / y))
    | .inf, .val y => .ok (if 0 < y then .inf else .ninf)
    | .ninf, .val y => .ok (if 0 < y then .ninf else .inf)
    | .nan, .val _ => .ok .nan
    | .val _, .inf => .ok (.val 0)
    | .val _, .ninf => .ok (.val 0)
    | .inf, .inf => .ok .nan
    | .inf, .ninf => .ok .nan
    | .ninf, .inf => .ok .nan
    | .ninf, .ninf => .ok .nan
    | .nan, .inf => .ok .nan
    | .nan, .ninf => .ok .nan
    | _, .nan => .ok .nan

/-- View of an `Except` value as a sum, for deciding equalities. -/
def exceptToSum {ε α : Type} : Except ε α → ε ⊕ α
  | .error e => .inl e
  | .ok a => .inr a

instance {ε α : Type} [DecidableEq ε] [DecidableEq α] : DecidableEq (Except ε α) :=
  fun a b =>
    decidable_of_iff (exceptToSum a = exceptToSum b)
      (by cases a <;> cases b <;> simp [exceptToSum])

/-- Python dict access `d[k]` on an association list: `KeyError` when the
key is absent. -/
def dictGet {β : Type} (l : List (PyStr × β)) (k : PyStr) : Except PyError β :=
  match List.lookup k l with
  | some v => .ok v
  | none => .error (.keyError k)

/-! ## `awebox/mdl/system.py` -/

/-- A variable entry: identifier plus casadi dimension pair, e.g.
`('q' + str(n) + str(parent), (3, 1))`. -/
abbrev VarEntry := PyStr × (Nat × Nat)

/-- The architecture object consumed by `generate_structure` and the
quality tests (`number_of_nodes`, `parent_map`, `kite_nodes`,
`layer_nodes`, `children_map`). -/
structure Architecture where
  number_of_nodes : Nat
  parent_map : Nat → Nat
  kite_nodes : List Nat
  layer_nodes : List Nat
  children_map : List (Nat × List Nat)

/-- The option fields read by `generate_structure` /
`extend_aerodynamics`: `options['kite_dof']`, `options['surface_control']`,
`options['tether']['control_var']`, `options['integral_outputs']`,
`options['induction_model']`, `options['aero']['actuator']['steadyness']`,
`options['aero']['actuator']['correct_tilt']`,
`options['aero']['actuator']['normal_vector_model']` (read but unused). -/
structure SysOptions where
  kite_dof : Nat
  surface_control : Nat
  tether_control_var : PyStr
  integral_outputs : Bool
  induction_model : PyStr
  steadyness : PyStr
  correct_tilt : Bool
  normal_vector_model : PyStr

/-- The `system_variables_list` dict returned by `generate_structure`.
The `'xl'` key is present only when the lifted list is nonempty. -/
structure SystemVarsList where
  xd : List VarEntry
  xddot : List VarEntry
  u : List VarEntry
  xa : List VarEntry
  theta : List VarEntry
  xl : Option (List VarEntry)
  deriving DecidableEq

/-- `tether_states = [('q', (3, 1)), ('dq', (3, 1))]` -/
def tether_states : List VarEntry := [(pstr ("q"), (3, 1)), (pstr ("dq"), (3, 1))]

/-- `tether_gc = ['q']` -/
def tether_gc : List PyStr := [pstr ("q")]

/-- `tether_controls = []` -/
def tether_controls : List VarEntry := []

/-- `tether_multipliers = [('lambda', (1, 1))]` -/
def tether_multipliers : List VarEntry := [(pstr ("lambda"), (1, 1))]

/-- `kite_multipliers = [('lambda', (1, 1))]` -/
def kite_multipliers : List VarEntry := [(pstr ("lambda"), (1, 1))]

/-- `kite_gc = ['q']` -/
def kite_gc : List PyStr := [pstr ("q")]

/-- The `kite_dof` branch of `generate_structure` (lines 60-90): builds
the kite state and control templates, or raises
`ValueError('kite dof option %s not inluded at present', str(kite_dof))`. -/
def kite_templates (options : SysOptions) :
    Except PyError (List VarEntry × List VarEntry) :=
  let kite_states : List VarEntry := [(pstr ("q"), (3, 1)), (pstr ("dq"), (3, 1))]
  let kite_controls : List VarEntry := [(pstr ("f_fict"), (3, 1))]
  if options.kite_dof = 3 then
    .ok (kite_states ++ [(pstr ("coeff"), (2, 1))],
         kite_controls ++ [(pstr ("dcoeff"), (2, 1))])
  else if options.kite_dof = 6 then
    let kite_states := kite_states ++ [(pstr ("omega"), (3, 1)), (pstr ("r"), (9, 1))]
    let kite_controls := kite_controls ++ [(pstr ("m_fict"), (3, 1))]
    let kite_controls :=
      if options.surface_control = 0 then kite_controls ++ [(pstr ("delta"), (3, 1))]
      else kite_controls
    let kite_states :=
      if options.surface_control = 1 then kite_states ++ [(pstr ("delta"), (3, 1))]
      else kite_states
    let kite_controls :=
      if options.surface_control = 1 then kite_controls ++ [(pstr ("ddelta"), (3, 1))]
      else kite_controls
    .ok (kite_states, kite_controls)
  else
    .error (.valueError [pstr ("kite dof option %s not inluded at present"),
                         natStr options.kite_dof])

/-- Identifier suffix `str(n) + str(parent_map[n])`. -/
def nodeSfx (architecture : Architecture) (n : Nat) : PyStr :=
  natStr n ++ natStr (architecture.parent_map n)

/-- The per-node loop of `generate_structure` (lines 101-124): for
`n in range(1, number_of_nodes)` extend states/controls/multipliers/gc
with the kite or tether template instantiated with
identifier = base + str(n) + str(parent). -/
def node_loop (architecture : Architecture)
    (kite_states kite_controls : List VarEntry) :
    List VarEntry × List VarEntry × List VarEntry × List PyStr :=
  let nodes := List.range' 1 (architecture.number_of_nodes - 1)
  let inst := fun (tmpl : List VarEntry) (n : Nat) =>
    tmpl.map (fun e => (e.1 ++ nodeSfx architecture n, e.2))
  ( nodes.flatMap (fun n =>
      if n ∈ architecture.kite_nodes then inst kite_states n else inst tether_states n),
    nodes.flatMap (fun n =>
      if n ∈ architecture.kite_nodes then inst kite_controls n else inst tether_controls n),
    nodes.flatMap (fun n =>
      if n ∈ architecture.kite_nodes then inst kite_multipliers n else inst tether_multipliers n),
    nodes.flatMap (fun n =>
      if n ∈ architecture.kite_nodes then (kite_gc.map (fun b => b ++ nodeSfx architecture n))
      else (tether_gc.map (fun b => b ++ nodeSfx architecture n))) )

/-- The per-layer lifted entries added by `extend_aerodynamics`
(lines 183-202): steady closure entries, then the four always-present
entries, then the optional tilt correction. -/
def layer_lifted (options : SysOptions) (layer_node : Nat) : List VarEntry :=
  (if options.steadyness = pstr ("steady") then
    [(pstr ("a") ++ natStr layer_node, (1, 1)),
     (pstr ("ct") ++ natStr layer_node, (1, 1)),
     (pstr ("bar_varrho") ++ natStr layer_node, (1, 1)),
     (pstr ("f") ++ natStr layer_node, (1, 1))]
   else []) ++
  [(pstr ("fnorm") ++ natStr layer_node, (1, 1)),
   (pstr ("nhat") ++ natStr layer_node, (3, 1)),
   (pstr ("qapp") ++ natStr layer_node, (1, 1)),
   (pstr ("area") ++ natStr layer_node, (1, 1))] ++
  (if options.correct_tilt then [(pstr ("cosgamma") ++ natStr layer_node, (1, 1))] else [])

/-- The per-layer state entries added by `extend_aerodynamics`
(lines 189-193, `steadyness == 'unsteady'`). -/
def layer_states (options : SysOptions) (layer_node : Nat) : List VarEntry :=
  if options.steadyness = pstr ("unsteady") then
    [(pstr ("a") ++ natStr layer_node, (1, 1)),
     (pstr ("ct") ++ natStr layer_node, (1, 1)),
     (pstr ("bar_varrho") ++ natStr layer_node, (1, 1)),
     (pstr ("f") ++ natStr layer_node, (1, 1))]
  else []

/-- `extend_aerodynamics` (lines 166-204): when the induction model is in
use, extend the lifted list with one `varrho` entry per kite node and the
per-layer entries, and (for unsteady closures) extend the state list. -/
def extend_aerodynamics (options : SysOptions)
    (system_lifted system_states : List VarEntry) (architecture : Architecture) :
    List VarEntry × List VarEntry :=
  if ¬ (options.induction_model = pstr ("not_in_use")) then
    (system_lifted ++
       architecture.kite_nodes.map (fun kite =>
         (pstr ("varrho") ++ natStr kite ++ natStr (architecture.parent_map kite), (1, 1))) ++
       architecture.layer_nodes.flatMap (layer_lifted options),
     system_states ++ architecture.layer_nodes.flatMap (layer_states options))
  else
    (system_lifted, system_states)

/-- `generate_structure` (lines 39-164). -/
def generate_structure (options : SysOptions) (architecture : Architecture) :
    Except PyError (SystemVarsList × List PyStr) := do
  let (kite_states, kite_controls) ← kite_templates options
  let (system_states, system_controls, system_multipliers, system_gc) :=
    node_loop architecture kite_states kite_controls
  -- main tether length and speed
  let system_states := system_states ++ [(pstr ("l_t"), (1, 1)), (pstr ("dl_t"), (1, 1))]
  let (system_states, system_controls) ←
    if options.tether_control_var = pstr ("ddl_t") then
      pure (system_states, system_controls ++ [(pstr ("ddl_t"), (1, 1))])
    else if options.tether_control_var = pstr ("dddl_t") then
      pure (system_states ++ [(pstr ("ddl_t"), (1, 1))],
            system_controls ++ [(pstr ("dddl_t"), (1, 1))])
    else
      Except.error (.valueError [pstr ("invalid tether control variable chosen")])
  let system_states :=
    if options.integral_outputs then system_states
    else system_states ++ [(pstr ("e"), (1, 1))]
  let (system_lifted, system_states) :=
    extend_aerodynamics options [] system_states architecture
  let system_derivatives := system_states.map (fun e => (pstr ("d") ++ e.1, e.2))
  let system_parameters : List VarEntry :=
    [(pstr ("l_s"), (1, 1)), (pstr ("l_i"), (1, 1)), (pstr ("diam_s"), (1, 1)),
     (pstr ("diam_t"), (1, 1)), (pstr ("t_f"), (1, 1))]
  let tables : SystemVarsList :=
    { xd := system_states
      xddot := system_derivatives
      u := system_controls
      xa := system_multipliers
      theta := system_parameters
      xl := if system_lifted = [] then none else some system_lifted }
  pure (tables, system_gc)

/-! ## Bounds (`define_bounds`, `scale_bounds`) -/

/-- The sparse bound-override options: role section → identifier →
`(lower, upper)` (the `[0]`/`[1]` accesses of the option value). -/
abbrev OptionsTable := List (PyStr × List (PyStr × (EFloat × EFloat)))

/-- The bound table built by `define_bounds`: role → identifier →
`{'lb': …, 'ub': …}`. -/
abbrev BoundsTable := List (PyStr × List (PyStr × (EFloat × EFloat)))

/-- The scaling table consumed by `scale_bounds`: role → identifier →
scale factor. -/
abbrev ScalingTable := List (PyStr × List (PyStr × EFloat))

/-- Modelled from the spec: `struct_op.get_node_variable_name`
(awebox/tools/struct_operations.py, not under src/) — "omit node numbers"
(system.py line 215); §4.2 of the spec: "base-name match (identifier with
trailing node/parent digits stripped)".  Strips the trailing decimal
digits from an identifier. -/
def get_node_variable_name (name : PyStr) : PyStr :=
  (name.reverse.dropWhile Char.isDigit).reverse

/-- `define_bounds` (lines 206-228).  `variables` is the casadi
variables struct, embedded as the role-keyed identifier lists that
`list(variables.keys())` / `struct_op.subkeys` iterate over (subkeys is
not under src/; modelled from the spec: the canonical per-role
identifier list of the schema). -/
def define_bounds (options : OptionsTable) (schema_vars : List (PyStr × List PyStr)) :
    BoundsTable :=
  schema_vars.map (fun sec =>
    (sec.1, sec.2.map (fun name =>
      (name,
       match List.lookup sec.1 options with
       | some osec =>
         -- check if variable has node bounds, then global bounds
         match List.lookup name osec with
         | some b => b
         | none =>
           match List.lookup (get_node_variable_name name) osec with
           | some b => b
           | none => (EFloat.ninf, EFloat.inf)
       | none => (EFloat.ninf, EFloat.inf)))))

/-- `scale_bounds` (lines 230-236): divides each bound by
`scaling[variable_type][name]`.  A missing key raises `KeyError`, a zero
scale factor raises `ZeroDivisionError` (the source performs the same
pure dict lookups separately on the `lb` and the `ub` line). -/
def scale_bounds (variable_bounds : BoundsTable) (scaling : ScalingTable) :
    Except PyError BoundsTable :=
  variable_bounds.mapM (fun sec => do
    let entries ← sec.2.mapM (fun ent => do
      let styp ← dictGet scaling sec.1
      let s ← dictGet styp ent.1
      let lb ← pydiv ent.2.1 s
      let ub ← pydiv ent.2.2 s
      pure (ent.1, (lb, ub)))
    pure (sec.1, entries))

/-- Model of a *call* to `scale_bounds`: the bound dict is updated in
place and also returned, so the returned table and the caller's table
after the call are the same mutated table.  The pair is
`(return value, caller's table after the call)`. -/
def scale_bounds_call (variable_bounds : BoundsTable) (scaling : ScalingTable) :
    Except PyError (BoundsTable × BoundsTable) :=
  (scale_bounds variable_bounds scaling).map (fun t => (t, t))

/-- The three-tier bound resolution exactly as the specification words
it (§4.2): exact identifier match in the entry's own role section,
otherwise base-name match, otherwise `(−∞, +∞)`. -/
def resolve_bound_spec (options : OptionsTable) (role name : PyStr) : EFloat × EFloat :=
  match List.lookup role options with
  | none => (EFloat.ninf, EFloat.inf)
  | some osec =>
    match List.lookup name osec with
    | some b => b
    | none =>
      match List.lookup (get_node_variable_name name) osec with
      | some b => b
      | none => (EFloat.ninf, EFloat.inf)

/-- Lookup of one identifier's bound pair in a built bound table. -/
def lookupBound (t : BoundsTable) (role name : PyStr) : Option (EFloat × EFloat) :=
  (List.lookup role t).bind (fun sec => List.lookup name sec)

/-- `True` exactly when the Except value is a raised `ConfigurationError`. -/
def raisesConfigError {β : Type} : Except PyError β → Bool
  | .error (.configurationError _) => true
  | _ => false

/-! ## `awebox/quality_funcs.py` -/

/-- Python dicts used as check-result mappings: lookup-only view. -/
abbrev PyDict (β : Type) := PyStr → Option β

/-- `results[k] = v` on a dict. -/
def dset {β : Type} (d : PyDict β) (k : PyStr) (v : β) : PyDict β :=
  fun k' => if k' = k then some v else d k'

/-- `np.min` of a 1-d array; empty arrays raise `ValueError`. -/
def pyNpMin (l : List ℚ) : Except PyError ℚ :=
  match l with
  | [] => .error (.valueError
      [pstr ("zero-size array to reduction operation minimum which has no identity")])
  | x :: xs => .ok (xs.foldl min x)

/-- `test_variables` (quality_funcs.py lines 169-205).  `heights_xd`
maps a node string `'q'+str(n)+str(parent)` to the sampled heights
`V_final['xd',:,node_str,2]`; `heights_coll` to
`V_final['coll_var',:,:,'xd',node_str,2]`.  Per node: under direct
collocation the collocation heights are reduced first (line 193, whose
flag is never read); then a negative interval sample records `False`;
then under direct collocation a negative collocation sample records
`False`, while under any other discretization the trailing `else`
(line 202) records `True`. -/
def test_variables_node_step (discretization : PyStr) (parent_map : Nat → Nat)
    (heights_xd heights_coll : PyStr → List ℚ) (res : PyDict Bool) (node : Nat) :
    Except PyError (PyDict Bool) := do
  let node_str := pstr ("q") ++ natStr node ++ natStr (parent_map node)
  if discretization = pstr ("direct_collocation") then
    let _ ← pyNpMin (heights_coll node_str)
    pure ()
  else pure ()
  let mn ← pyNpMin (heights_xd node_str)
  let res := if mn < 0 then dset res (pstr ("min_node_height")) false else res
  if discretization = pstr ("direct_collocation") then do
    let mc ← pyNpMin (heights_coll node_str)
    pure (if mc < 0 then dset res (pstr ("min_node_height")) false else res)
  else
    pure (dset res (pstr ("min_node_height")) true)

/-- `test_variables`, assembled: the node loop `for node in
range(1, number_of_nodes)`. -/
def test_variables (discretization : PyStr) (number_of_nodes : Nat)
    (parent_map : Nat → Nat) (heights_xd heights_coll : PyStr → List ℚ)
    (results : PyDict Bool) : Except PyError (PyDict Bool) :=
  (List.range' 1 (number_of_nodes - 1)).foldlM
    (test_variables_node_step discretization parent_map heights_xd heights_coll) results

/-- `np.max(np.abs(arr))`; empty arrays raise `ValueError`. -/
def pyMaxAbs (l : List ℚ) : Except PyError ℚ :=
  match l with
  | [] => .error (.valueError
      [pstr ("zero-size array to reduction operation maximum which has no identity")])
  | x :: xs => .ok (xs.foldl (fun m y => max m |y|) |x|)

/-- Total version of `np.max(np.abs(arr))` (0 on the empty array);
agrees with `pyMaxAbs` on every nonempty array. -/
def maxAbsQ : List ℚ → ℚ
  | [] => 0
  | x :: xs => xs.foldl (fun m y => max m |y|) |x|

/-- Elementwise `+=` of two sampled time series. -/
def listAddQ (a b : List ℚ) : List ℚ := List.zipWith (· + ·) a b

/-- Elementwise `-` of two sampled time series. -/
def listSubQ (a b : List ℚ) : List ℚ := List.zipWith (· - ·) a b

/-- `np.linalg.norm` of a sampled time series (Euclidean norm, exact). -/
noncomputable def vnorm (l : List ℚ) : ℝ :=
  Real.sqrt (((l.map (fun x => x * x)).sum : ℚ) : ℝ)

/-- A numpy `float64` scalar as produced by the balance-ratio divisions:
a finite real, or one of the non-finite values `inf`, `-inf`, `nan`. -/
inductive NpFloat where
  | fin (x : ℝ)
  | inf
  | ninf
  | nan

/-- numpy `float64` division of finite scalars: a zero divisor does not
raise; it emits a `RuntimeWarning` and yields `inf` (positive dividend),
`-inf` (negative dividend) or `nan` (zero dividend). -/
noncomputable def npDiv (num den : ℝ) : NpFloat :=
  if den = 0 then
    (if num = 0 then NpFloat.nan else if 0 < num then NpFloat.inf else NpFloat.ninf)
  else NpFloat.fin (num / den)

/-- The IEEE `>` comparison of a numpy scalar against a finite
threshold: `inf` exceeds every finite value; `-inf` and `nan` none. -/
noncomputable def NpFloat.gtR : NpFloat → ℝ → Bool
  | NpFloat.fin x, t => decide (x > t)
  | NpFloat.inf, _ => true
  | NpFloat.ninf, _ => false
  | NpFloat.nan, _ => false

/-- `name[-len(str(node)):] == str(node)` (line 225). -/
def suffix_matches (name : PyStr) (node : Nat) : Bool :=
  name.drop (name.length - (natStr node).length) == natStr node

/-- The system-wide summation predicate of line 247:
`(name[:8] != 'P_tether') or (name == 'P_tether1') or
(name[:12] == 'P_tetherdrag')`. -/
def sys_term_pred (name : PyStr) : Bool :=
  (name.take 8 != pstr ("P_tether")) || (name == pstr ("P_tether1")) ||
    (name.take 12 == pstr ("P_tetherdrag"))

/-- Lines 221-229 of `test_power_balance`: scan all power-balance names,
summing the node-suffix-matching series into `P_total` and tracking the
largest single power magnitude. -/
def power_node_scan (power_balance : List (PyStr × List ℚ)) (T : Nat) (node : Nat) :
    Except PyError (ℚ × List ℚ) :=
  power_balance.foldlM (fun acc ent =>
    if suffix_matches ent.1 node then do
      let m ← pyMaxAbs ent.2
      pure (max m acc.1, listAddQ acc.2 ent.2)
    else pure acc) ((0 : ℚ), List.replicate T (0 : ℚ))

/-- Lines 231-238 of `test_power_balance`: subtract the tether power
terms of the node's children (dict accesses that can raise `KeyError`),
still tracking the largest single power magnitude.  The source indexes
`power_balance[name][0]` when summing but subtracts `power_balance[name]`
whole; both denote the same sampled series (numpy broadcasts the
one-element wrapper), so the embedding uses the series in both places. -/
def power_node_children (power_balance : List (PyStr × List ℚ))
    (children_map : List (Nat × List Nat)) (node : Nat) (acc : ℚ × List ℚ) :
    Except PyError (ℚ × List ℚ) :=
  match List.lookup node children_map with
  | none => .ok acc
  | some children => children.foldlM (fun acc child => do
      let series ← dictGet power_balance (pstr ("P_tether") ++ natStr child)
      let m ← pyMaxAbs series
      pure (max m acc.1, listSubQ acc.2 series)) acc

/-- One iteration of the per-node loop of `test_power_balance`. -/
def power_node_step (power_balance : List (PyStr × List ℚ))
    (children_map : List (Nat × List Nat)) (T : Nat) (node : Nat) :
    Except PyError (ℚ × List ℚ) := do
  let acc ← power_node_scan power_balance T node
  power_node_children power_balance children_map node acc

/-- One iteration of the balance loop of `test_power_balance` (lines
219-242).  `T` is the interpolation grid length (`tgrid.shape`); each
power-balance entry is its sampled series.  Line 240 divides numpy
floats, so a zero `max_node_power` yields `inf`/`nan` (via `npDiv`)
rather than raising. -/
noncomputable def power_balance_node_fold (power_balance : List (PyStr × List ℚ))
    (children_map : List (Nat × List Nat)) (T : Nat)
    (acc : List (PyStr × NpFloat) × ℚ) (node : Nat) :
    Except PyError (List (PyStr × NpFloat) × ℚ) := do
  let (mnp, P) ← power_node_step power_balance children_map T node
  pure (acc.1 ++ [(natStr node, npDiv (vnorm P) (mnp : ℝ))], max mnp acc.2)

/-- Lines 252-257: record `'energy_balance' + str(key)` as `False`
exactly when the balance ratio exceeds the threshold, under the IEEE
comparison (an `inf` ratio records `False`, a `nan` ratio `True`). -/
noncomputable def balance_report (tresh : ℝ) (res : PyDict Bool) (kv : PyStr × NpFloat) :
    PyDict Bool :=
  dset res (pstr ("energy_balance") ++ kv.1) (if kv.2.gtR tresh then false else true)

/-- `test_power_balance` (lines 207-259), assembled. -/
noncomputable def test_power_balance (T : Nat)
    (power_balance : List (PyStr × List ℚ)) (number_of_nodes : Nat)
    (children_map : List (Nat × List Nat)) (tresh : ℝ)
    (results : PyDict Bool) : Except PyError (PyDict Bool) := do
  let (balance, max_system_power) ←
    (List.range' 1 (number_of_nodes - 1)).foldlM
      (power_balance_node_fold power_balance children_map T)
      (([] : List (PyStr × NpFloat)), (0 : ℚ))
  let P_sys := power_balance.foldl
      (fun P ent => if sys_term_pred ent.1 then listAddQ P ent.2 else P)
      (List.replicate T (0 : ℚ))
  let balance := balance ++ [(pstr ("total"), npDiv (vnorm P_sys) (max_system_power : ℝ))]
  pure (balance.foldl (balance_report tresh) results)

/-- Claim side: the largest single node-level power magnitude observed
at one node (suffix-matching terms plus the node's children tether
terms). -/
def claim_node_max (power_balance : List (PyStr × List ℚ))
    (children_map : List (Nat × List Nat)) (node : Nat) : ℚ :=
  (((power_balance.filter (fun ent => suffix_matches ent.1 node)).map
      (fun ent => maxAbsQ ent.2)) ++
   (((List.lookup node children_map).getD []).map (fun child =>
      maxAbsQ ((List.lookup (pstr ("P_tether") ++ natStr child) power_balance).getD []))))
  |>.foldl max 0

/-- Claim side: the largest single node-level power magnitude observed
anywhere in the tree. -/
def claim_max_system_power (power_balance : List (PyStr × List ℚ))
    (children_map : List (Nat × List Nat)) (number_of_nodes : Nat) : ℚ :=
  ((List.range' 1 (number_of_nodes - 1)).map
      (claim_node_max power_balance children_map)).foldl max 0

/-- Claim side: the system total, summing exactly the terms whose name
does not begin with `P_tether`, or is exactly `P_tether1`, or begins
with `P_tetherdrag`. -/
def claim_system_total (power_balance : List (PyStr × List ℚ)) (T : Nat) : List ℚ :=
  (power_balance.filter (fun ent => sys_term_pred ent.1)).foldl
    (fun P ent => listAddQ P ent.2) (List.replicate T (0 : ℚ))

/-! ## `awebox/ocp/nlp.py` -/

/-- The model object as seen by `NLP.build` (only its `status` is read). -/
structure PyModel where
  status : PyStr

/-- The formulation object as seen by `NLP.build`. -/
structure PyFormulation where
  status : PyStr

/-- The fields of an `NLP` object that `build` constructs, over an
opaque content type `α`: `None`-initialized until built. -/
structure NLPState (α : Type) where
  status : PyStr
  V : Option α
  V_bounds : Option α
  objective : Option α
  timings : Option α
  deriving DecidableEq

/-- Modelled from the spec: the external stages `discretization.discretize`,
`var_bounds.get_variable_bounds` and
`objective.get_cost_function_and_structure` (not under src/) are opaque
collaborators; the values they would construct are supplied as inputs. -/
structure BuildEnv (α : Type) where
  discretization_out : α
  bounds_out : α
  objective_out : α
  timing_out : α

/-- `NLP.build` (nlp.py lines 49-73).  The pair component of the result
is the Python return value (always `None`): when the status already says
built, it logs and returns `None` leaving the state untouched; when
model and formulation are built, it constructs every field and flips the
status; otherwise it raises `ValueError`. -/
def nlp_build {α : Type} (s : NLPState α) (model : PyModel)
    (formulation : PyFormulation) (env : BuildEnv α) :
    Except PyError (Option α × NLPState α) :=
  if s.status = pstr ("I am an NLP.") then
    .ok (none, s)
  else if model.status = pstr ("I am a model.") ∧
          formulation.status = pstr ("I am a formulation.") then
    .ok (none,
      { status := pstr ("I am an NLP.")
        V := some env.discretization_out
        V_bounds := some env.bounds_out
        objective := some env.objective_out
        timings := some env.timing_out })
  else
    .error (.valueError [pstr ("Cannot build NLP without first building model and formulation.")])

/-! ## Concrete instances and validity -/

/-- The specification's architecture invariant (§3), as a decidable
check: every non-root node 1..N-1 has a parent of strictly smaller
index (single tree rooted at node 0), and the kite/layer node lists are
duplicate-free subsets of the node range. -/
def validArch (a : Architecture) : Bool :=
  ((List.range' 1 (a.number_of_nodes - 1)).all (fun n => decide (a.parent_map n < n))) &&
  decide a.kite_nodes.Nodup &&
  (a.kite_nodes.all (fun k => decide (1 ≤ k) && decide (k < a.number_of_nodes))) &&
  decide a.layer_nodes.Nodup &&
  (a.layer_nodes.all (fun l => decide (l < a.number_of_nodes)))

/-- The end-to-end scenario's mode configuration: `kite_dof = 3`,
tether control `ddl_t` (accel), no integral outputs, induction not in
use. -/
def opts3 : SysOptions :=
  { kite_dof := 3
    surface_control := 0
    tether_control_var := pstr ("ddl_t")
    integral_outputs := false
    induction_model := pstr ("not_in_use")
    steadyness := pstr ("steady")
    correct_tilt := false
    normal_vector_model := pstr ("shared") }

/-- The end-to-end scenario's architecture: root 0 → node 1 (tether
junction) → node 2 (kite). -/
def arch3 : Architecture :=
  { number_of_nodes := 3
    parent_map := fun n => if n = 2 then 1 else 0
    kite_nodes := [2]
    layer_nodes := []
    children_map := [(1, [2])] }

/-- A mode configuration with an invalid `kite_dof`. -/
def badDofOpts : SysOptions := { opts3 with kite_dof := 4 }

/-- A mode configuration with an invalid tether control variable. -/
def badTetherOpts : SysOptions := { opts3 with tether_control_var := pstr ("l_t") }

/-- A 112-node architecture (nodes 0..111): a chain 0→1→…→110 plus a
kite node 111 attached directly to the root; node 110 is the chain's
kite.  Node 11 (parent 10) and node 111 (parent 0) both render the
state identifier `q1110`. -/
def arch112 : Architecture :=
  { number_of_nodes := 112
    parent_map := fun n => if n = 111 then 0 else n - 1
    kite_nodes := [110, 111]
    layer_nodes := []
    children_map := [] }

/-- The multiple-shooting discretization option string. -/
def msDisc : PyStr := pstr ("multiple_shooting")

/-- A trajectory sample with a negative height at every node. -/
def negHeights : PyStr → List ℚ := fun _ => [(-1 : ℚ)]

/-- Empty collocation samples (unused under multiple shooting). -/
def emptyHeights : PyStr → List ℚ := fun _ => []

/-- An initially empty results dict. -/
def emptyResults : PyDict Bool := fun _ => none

/-- An already-built NLP object over `Nat`-coded contents. -/
def builtNLP : NLPState Nat :=
  { status := pstr ("I am an NLP.")
    V := some 1
    V_bounds := some 2
    objective := some 3
    timings := some 4 }

/-- A built model object. -/
def modelOK : PyModel := { status := pstr ("I am a model.") }

/-- A built formulation object. -/
def formulationOK : PyFormulation := { status := pstr ("I am a formulation.") }

/-- Concrete stand-ins for what the external build stages would produce. -/
def envNLP : BuildEnv Nat :=
  { discretization_out := 5
    bounds_out := 6
    objective_out := 7
    timing_out := 8 }

/-- A one-entry bound table holding the default unbounded pair. -/
def vbSample : BoundsTable :=
  [(pstr ("xd"), [(pstr ("q10"), (EFloat.ninf, EFloat.inf))])]

/-- A matching scale table with (nonzero) factor −2. -/
def scSample : ScalingTable := [(pstr ("xd"), [(pstr ("q10"), EFloat.val (-2))])]

/-- `vbSample` after rescaling by `scSample`: the division by the
negative factor swaps the two infinities. -/
def vbScaled : BoundsTable :=
  [(pstr ("xd"), [(pstr ("q10"), (EFloat.inf, EFloat.ninf))])]

/-- A matching scale table with a zero factor. -/
def scZero : ScalingTable := [(pstr ("xd"), [(pstr ("q10"), EFloat.val 0)])]

/-- The scale factor the rescaling would use for one identifier:
`scaling[role][name]` as an optional value. -/
def scaleFactorOf (scaling : ScalingTable) (role name : PyStr) : Option EFloat :=
  (List.lookup role scaling).bind (fun styp => List.lookup name styp)

instance : DecidableEq (BoundsTable × BoundsTable) := instDecidableEqProd

/-- A bound-override options table: a base-name override for `q` and a
full-identifier override for `l_t`, both in the `xd` section. -/
def optsB : OptionsTable :=
  [(pstr ("xd"),
    [(pstr ("q"), (EFloat.val (-10), EFloat.val 10)),
     (pstr ("l_t"), (EFloat.val 0, EFloat.inf))])]

/-- A schema variable listing with two `xd` identifiers. -/
def varsB : List (PyStr × List PyStr) :=
  [(pstr ("xd"), [pstr ("q21"), pstr ("l_t")])]

/-- The schema tables `generate_structure` produces for `opts3`/`arch3`. -/
def tbl3 : SystemVarsList :=
  { xd := [(pstr ("q10"), (3, 1)), (pstr ("dq10"), (3, 1)), (pstr ("q21"), (3, 1)),
           (pstr ("dq21"), (3, 1)), (pstr ("coeff21"), (2, 1)), (pstr ("l_t"), (1, 1)),
           (pstr ("dl_t"), (1, 1)), (pstr ("e"), (1, 1))]
    xddot := [(pstr ("dq10"), (3, 1)), (pstr ("ddq10"), (3, 1)), (pstr ("dq21"), (3, 1)),
              (pstr ("ddq21"), (3, 1)), (pstr ("dcoeff21"), (2, 1)), (pstr ("dl_t"), (1, 1)),
              (pstr ("ddl_t"), (1, 1)), (pstr ("de"), (1, 1))]
    u := [(pstr ("f_fict21"), (3, 1)), (pstr ("dcoeff21"), (2, 1)), (pstr ("ddl_t"), (1, 1))]
    xa := [(pstr ("lambda10"), (1, 1)), (pstr ("lambda21"), (1, 1))]
    theta := [(pstr ("l_s"), (1, 1)), (pstr ("l_i"), (1, 1)), (pstr ("diam_s"), (1, 1)),
              (pstr ("diam_t"), (1, 1)), (pstr ("t_f"), (1, 1))]
    xl := none }

/-- The generalized coordinates `generate_structure` returns for
`opts3`/`arch3`. -/
def gc3 : List PyStr := [pstr ("q10"), pstr ("q21")]

/-- The state-table identifiers produced by `generate_structure`
(empty on error). -/
def xdIds (o : SysOptions) (a : Architecture) : List PyStr :=
  match generate_structure o a with
  | .ok (t, _) => t.xd.map Prod.fst
  | .error _ => []

/-- The derivative-table identifiers produced by `generate_structure`
(empty on error). -/
def xddotIds (o : SysOptions) (a : Architecture) : List PyStr :=
  match generate_structure o a with
  | .ok (t, _) => t.xddot.map Prod.fst
  | .error _ => []

/-- A one-term power-balance table: a single non-tether term at node 1. -/
def pbW : List (PyStr × List ℚ) := [(pstr ("P_other1"), [1])]

/-- A power-balance table whose only term matches no node suffix, so the
largest observed node-level power magnitude is `0`. -/
def pbZ : List (PyStr × List ℚ) := [(pstr ("P_other"), [5])]

/-- An identifier base name never ends in a decimal digit. -/
def noTrailingDigit (s : PyStr) : Bool := s.reverse.dropWhile Char.isDigit == s.reverse

/-- Every character of the string is a decimal digit. -/
def allDigits (s : PyStr) : Bool := s.all Char.isDigit

/-- Split an identifier into its digit-free base and trailing digit
suffix; a retraction of base-plus-digit-suffix rendering. -/
def parseKey (s : PyStr) : PyStr × PyStr :=
  ((s.reverse.dropWhile Char.isDigit).reverse, (s.reverse.takeWhile Char.isDigit).reverse)

/-- Render one template: every base name of the group suffixed with the
group's digit string. -/
def renderSpec (sp : List PyStr × PyStr) : List PyStr := sp.1.map (fun b => b ++ sp.2)

/-- The per-layer base names `extend_aerodynamics` promotes to states
(unsteady closures). -/
def layerStateBases (o : SysOptions) : List PyStr :=
  if o.steadyness = pstr ("unsteady") then
    [pstr ("a"), pstr ("ct"), pstr ("bar_varrho"), pstr ("f")]
  else []

/-- The per-layer base names `extend_aerodynamics` adds to the lifted
list. -/
def layerLiftedBases (o : SysOptions) : List PyStr :=
  (if o.steadyness = pstr ("steady") then
    [pstr ("a"), pstr ("ct"), pstr ("bar_varrho"), pstr ("f")]
   else []) ++
  [pstr ("fnorm"), pstr ("nhat"), pstr ("qapp"), pstr ("area")] ++
  (if o.correct_tilt then [pstr ("cosgamma")] else [])

/-! ## Helper lemmas -/

/-- Bind of a successful `Except` computation. -/
theorem exbind_ok {ε α β : Type} (a : α) (f : α → Except ε β) :
    (Except.ok a >>= f) = f a := rfl

/-- Bind of a failed `Except` computation. -/
theorem exbind_error {ε α β : Type} (e : ε) (f : α → Except ε β) :
    ((Except.error e : Except ε α) >>= f) = Except.error e := rfl

/-- Successful dict access is exactly a successful lookup. -/
theorem dictGet_ok {β : Type} (l : List (PyStr × β)) (k : PyStr) (v : β) :
    dictGet l k = .ok v ↔ List.lookup k l = some v := by
  unfold dictGet; cases h : List.lookup k l <;> simp

/-- A division that succeeded cannot have had a zero divisor. -/
theorem pydiv_ok_ne_zero (a b c : EFloat) (h : pydiv a b = .ok c) :
    b ≠ EFloat.val 0 := by
  intro hb; subst hb; simp [pydiv] at h

/-- If `mapM` succeeds, the function succeeded on every element. -/
theorem mapM_ok_forall {α β : Type} (f : α → Except PyError β) :
    ∀ (l : List α) (out : List β), l.mapM f = .ok out → ∀ x ∈ l, ∃ y, f x = .ok y := by
  intro l
  induction l with
  | nil => intro out h x hx; cases hx
  | cons a t ih =>
    intro out h x hx
    rw [List.mapM_cons] at h
    cases hfa : f a with
    | error e => rw [hfa] at h; simp [exbind_error] at h
    | ok y =>
      rw [hfa, exbind_ok] at h
      cases hts : t.mapM f with
      | error e => rw [hts] at h; simp [exbind_error] at h
      | ok ys =>
        rcases List.mem_cons.mp hx with rfl | hx'
        · exact ⟨y, hfa⟩
        · exact ih ys hts x hx'

/-- Looking a key up in a per-section transformed association list. -/
theorem lookup_map_sections {γ : Type} (svars : List (PyStr × List PyStr))
    (F : PyStr × List PyStr → γ) (role : PyStr) (names : List PyStr)
    (h : List.lookup role svars = some names) :
    List.lookup role (svars.map (fun sec => (sec.1, F sec))) = some (F (role, names)) := by
  induction svars with
  | nil => cases h
  | cons s t ih =>
    obtain ⟨k, v⟩ := s
    by_cases hk : role = k
    · subst hk
      simp [List.lookup] at h ⊢
      rw [h]
    · have hbeq : (role == k) = false := beq_eq_false_iff_ne.mpr hk
      simp only [List.map_cons, List.lookup, hbeq] at h ⊢
      exact ih h

/-- Looking a member up in a keyed `map` of itself. -/
theorem lookup_map_names {γ : Type} (names : List PyStr) (g : PyStr → γ) (name : PyStr)
    (h : name ∈ names) :
    List.lookup name (names.map (fun n => (n, g n))) = some (g name) := by
  induction names with
  | nil => cases h
  | cons a t ih =>
    by_cases hk : name = a
    · subst hk; simp [List.lookup]
    · have hbeq : (name == a) = false := beq_eq_false_iff_ne.mpr hk
      rcases List.mem_cons.mp h with h' | h'
      · exact absurd h' hk
      · simp only [List.map_cons, List.lookup, hbeq]
        exact ih h'

/-- Under a non-collocation discretization, one `test_variables` node
iteration ends by overwriting `min_node_height` with `True`. -/
theorem tv_step_ms_eq (pm : Nat → Nat) (hxd hcoll : PyStr → List ℚ) (res : PyDict Bool)
    (node : Nat) (x : ℚ) (xs : List ℚ)
    (hx : hxd (pstr ("q") ++ (natStr node ++ natStr (pm node))) = x :: xs) :
    test_variables_node_step msDisc pm hxd hcoll res node =
      .ok (dset (if xs.foldl min x < 0 then dset res (pstr ("min_node_height")) false else res)
             (pstr ("min_node_height")) true) := by
  have hd : ¬ (msDisc = pstr ("direct_collocation")) := by decide
  simp [test_variables_node_step, hd, hx, pyNpMin, exbind_ok]

/-- Folding the `test_variables` node loop over a nonempty node list
under multiple shooting always ends with `min_node_height = True`. -/
theorem tv_fold_ms (pm : Nat → Nat) (hxd hcoll : PyStr → List ℚ)
    (hne : ∀ s, hxd s ≠ []) :
    ∀ (l : List Nat) (res : PyDict Bool), l ≠ [] →
      ∃ r, l.foldlM (test_variables_node_step msDisc pm hxd hcoll) res = .ok r ∧
        r (pstr ("min_node_height")) = some true := by
  intro l
  induction l with
  | nil => intro res h; exact absurd rfl h
  | cons a t ih =>
    intro res _
    obtain ⟨x, xs, hx⟩ : ∃ x xs, hxd (pstr ("q") ++ (natStr a ++ natStr (pm a))) = x :: xs := by
      cases h : hxd (pstr ("q") ++ (natStr a ++ natStr (pm a))) with
      | nil => exact absurd h (hne _)
      | cons x xs => exact ⟨x, xs, rfl⟩
    have hstep := tv_step_ms_eq pm hxd hcoll res a x xs hx
    cases t with
    | nil =>
      refine ⟨dset (if xs.foldl min x < 0 then dset res (pstr ("min_node_height")) false else res)
               (pstr ("min_node_height")) true, ?_, by simp [dset]⟩
      simp [List.foldlM_cons, List.foldlM_nil, hstep, exbind_ok]
    | cons b t' =>
      obtain ⟨r, hr, hkey⟩ :=
        ih (dset (if xs.foldl min x < 0 then dset res (pstr ("min_node_height")) false else res)
              (pstr ("min_node_height")) true) (List.cons_ne_nil _ _)
      refine ⟨r, ?_, hkey⟩
      simp only [List.foldlM_cons, hstep, exbind_ok]
      exact hr

/-! ## Claim theorems -/

/-- Claim C1: for the three-node architecture root(0) → node1 (tether
junction) → node2 (kite) with `kite_dof = 3`, tether control `ddl_t`,
no integral outputs and induction not in use, `generate_structure`
emits exactly the states `q10, dq10, q21, dq21, coeff21, l_t, dl_t, e`
(in order), controls `f_fict21, dcoeff21, ddl_t`, multipliers
`lambda10, lambda21`, and no lifted (`xl`) table at all. -/
theorem C1_end_to_end_schema :
    (generate_structure opts3 arch3).map (fun r => r.1.xd.map Prod.fst) =
      .ok [pstr ("q10"), pstr ("dq10"), pstr ("q21"), pstr ("dq21"), pstr ("coeff21"),
           pstr ("l_t"), pstr ("dl_t"), pstr ("e")] ∧
    (generate_structure opts3 arch3).map (fun r => r.1.u.map Prod.fst) =
      .ok [pstr ("f_fict21"), pstr ("dcoeff21"), pstr ("ddl_t")] ∧
    (generate_structure opts3 arch3).map (fun r => r.1.xa.map Prod.fst) =
      .ok [pstr ("lambda10"), pstr ("lambda21")] ∧
    (generate_structure opts3 arch3).map (fun r => r.1.xl) = .ok none := by
  decide

set_option maxRecDepth 10000 in
/-- Claim C2, counterexample: identifiers are not unique across the
emitted tables.  Already on the valid three-node architecture the state
`dq10` recurs verbatim in the derivative table (as the derivative of
`q10`); and for the valid 112-node architecture `arch112` even the
state table alone repeats the identifier `q1110` (node 11 with parent
10 vs node 111 with parent 0), so the claimed uniqueness fails. -/
theorem C2_identifier_collision_counterexample :
    (validArch arch3 = true ∧
     pstr ("dq10") ∈ xdIds opts3 arch3 ∧ pstr ("dq10") ∈ xddotIds opts3 arch3) ∧
    (validArch arch112 = true ∧ ¬ (xdIds opts3 arch112).Nodup) :=
  ⟨⟨by decide, by decide, by decide⟩, ⟨by decide, by decide⟩⟩

/-- Claim C4: `define_bounds` resolves every schema entry's bound pair
by exactly the three tiers: an override keyed by the full identifier in
the entry's own role section takes precedence; otherwise an override
keyed by the base name (trailing digits stripped) applies; otherwise
the bound is exactly `(−∞, +∞)` — i.e. the built table agrees with
`resolve_bound_spec` on every listed identifier. -/
theorem C4_three_tier_resolution (options : OptionsTable)
    (svars : List (PyStr × List PyStr)) (role name : PyStr) (names : List PyStr)
    (h1 : List.lookup role svars = some names) (h2 : name ∈ names) :
    lookupBound (define_bounds options svars) role name =
      some (resolve_bound_spec options role name) := by
  unfold lookupBound define_bounds
  rw [lookup_map_sections svars _ role names h1]
  simp only [Option.some_bind]
  rw [lookup_map_names names _ name h2]
  unfold resolve_bound_spec
  cases List.lookup role options <;> rfl

/-- Claim C4, witness: the node instance `q21` resolves through the
base-name tier of `optsB`. -/
theorem C4_three_tier_resolution_witness :
    lookupBound (define_bounds optsB varsB) (pstr ("xd")) (pstr ("q21")) =
      some (resolve_bound_spec optsB (pstr ("xd")) (pstr ("q21"))) :=
  C4_three_tier_resolution optsB varsB (pstr ("xd")) (pstr ("q21"))
    [pstr ("q21"), pstr ("l_t")] (by decide) (by decide)

/-- Claim C5, counterexample: a zero scale factor makes `scale_bounds`
raise `ZeroDivisionError`, not the claimed `ConfigurationError`. -/
theorem C5_zero_scale_counterexample :
    scale_bounds vbSample scZero = .error .zeroDivisionError ∧
    raisesConfigError (scale_bounds vbSample scZero) = false := by decide

/-- Claim C5, amended: `scale_bounds` has no explicit validation; a
zero scale factor fails with `ZeroDivisionError` and a missing one with
`KeyError` when the entry is processed, so whenever `scale_bounds`
returns a table at all, every bound-table identifier's scale factor was
present and nonzero — no bound ever became `inf`/`NaN` through a
division by a zero scale factor. -/
theorem C5_scale_failure_not_silent (vb : BoundsTable) (sc : ScalingTable)
    (out : BoundsTable) (h : scale_bounds vb sc = .ok out) :
    ∀ sec ∈ vb, ∀ ent ∈ sec.2,
      scaleFactorOf sc sec.1 ent.1 ≠ none ∧
      scaleFactorOf sc sec.1 ent.1 ≠ some (EFloat.val 0) := by
  intro sec hsec ent hent
  unfold scale_bounds at h
  obtain ⟨secout, hsecF⟩ := mapM_ok_forall _ vb out h sec hsec
  cases hents : sec.2.mapM (fun ent => do
      let styp ← dictGet sc sec.1
      let s ← dictGet styp ent.1
      let lb ← pydiv ent.2.1 s
      let ub ← pydiv ent.2.2 s
      pure (ent.1, (lb, ub))) with
  | error e => rw [hents] at hsecF; simp [exbind_error] at hsecF
  | ok ents =>
    obtain ⟨entout, hentF⟩ := mapM_ok_forall _ sec.2 ents hents ent hent
    cases hstyp : dictGet sc sec.1 with
    | error e => rw [hstyp] at hentF; simp [exbind_error] at hentF
    | ok styp =>
      rw [hstyp, exbind_ok] at hentF
      cases hs : dictGet styp ent.1 with
      | error e => rw [hs] at hentF; simp [exbind_error] at hentF
      | ok s =>
        rw [hs, exbind_ok] at hentF
        cases hlb : pydiv ent.2.1 s with
        | error e => rw [hlb] at hentF; simp [exbind_error] at hentF
        | ok lb =>
          have hne := pydiv_ok_ne_zero _ _ _ hlb
          have h1 := (dictGet_ok _ _ _).mp hstyp
          have h2 := (dictGet_ok _ _ _).mp hs
          constructor
          · simp [scaleFactorOf, h1, h2]
          · simp only [scaleFactorOf, h1, Option.some_bind, h2, ne_eq, Option.some.injEq]
            exact hne

/-- Claim C5, witness: the successful rescale of `vbSample` by
`scSample` implies its scale factor was present and nonzero. -/
theorem C5_scale_failure_not_silent_witness :
    scaleFactorOf scSample (pstr ("xd")) (pstr ("q10")) ≠ none ∧
    scaleFactorOf scSample (pstr ("xd")) (pstr ("q10")) ≠ some (EFloat.val 0) :=
  C5_scale_failure_not_silent vbSample scSample vbScaled (by decide)
    (pstr ("xd"), [(pstr ("q10"), (EFloat.ninf, EFloat.inf))]) (by decide)
    (pstr ("q10"), (EFloat.ninf, EFloat.inf)) (by decide)

/-- Claim C6, counterexample: `scale_bounds` is not pure on its input —
after the call the caller's table holds the scaled bounds (here the
infinities swapped by the negative factor), not the pre-scaling pair. -/
theorem C6_caller_table_mutated_counterexample :
    scale_bounds_call vbSample scSample = .ok (vbScaled, vbScaled) ∧
    vbScaled ≠ vbSample := by
  constructor
  · decide
  · decide

/-- Claim C6, amended: `scale_bounds` updates the bound dict in place
and returns it, so the caller's table after the call aliases the
returned (scaled) table instead of keeping the pre-scaling values. -/
theorem C6_scale_bounds_aliasing (vb : BoundsTable) (sc : ScalingTable)
    (r : BoundsTable × BoundsTable) (h : scale_bounds_call vb sc = .ok r) :
    r.2 = r.1 ∧ scale_bounds vb sc = .ok r.1 := by
  unfold scale_bounds_call at h
  cases hs : scale_bounds vb sc with
  | error e => rw [hs] at h; simp [Except.map] at h
  | ok t =>
    rw [hs] at h
    have h2 : r = (t, t) := by simpa [Except.map] using h.symm
    subst h2
    exact ⟨rfl, rfl⟩

/-- Claim C6, witness: the aliasing result on the concrete tables. -/
theorem C6_scale_bounds_aliasing_witness :
    (vbScaled, vbScaled).2 = (vbScaled, vbScaled).1 ∧
    scale_bounds vbSample scSample = .ok (vbScaled, vbScaled).1 :=
  C6_scale_bounds_aliasing vbSample scSample (vbScaled, vbScaled) (by decide)

/-- Claim C7, counterexample: an invalid `kite_dof` (or tether control
variable) makes `generate_structure` raise `ValueError`, not the
claimed `ConfigurationError`. -/
theorem C7_valueerror_counterexample :
    generate_structure badDofOpts arch3 =
      .error (.valueError [pstr ("kite dof option %s not inluded at present"), natStr 4]) ∧
    raisesConfigError (generate_structure badDofOpts arch3) = false ∧
    raisesConfigError (generate_structure badTetherOpts arch3) = false := by decide

/-- Claim C7, amended: for every mode configuration whose `kite_dof` is
neither 3 nor 6, or whose tether control variable is neither `ddl_t`
nor `dddl_t`, `generate_structure` fails with a `ValueError` (whose
message names the offending option for `kite_dof` but not for the
tether variable), and only the error is returned — no partial schema
is ever produced. -/
theorem C7_invalid_options_raise_valueerror :
    (∀ (o : SysOptions) (a : Architecture), o.kite_dof ≠ 3 → o.kite_dof ≠ 6 →
      generate_structure o a =
        .error (.valueError [pstr ("kite dof option %s not inluded at present"),
                             natStr o.kite_dof])) ∧
    (∀ (o : SysOptions) (a : Architecture),
      o.tether_control_var ≠ pstr ("ddl_t") → o.tether_control_var ≠ pstr ("dddl_t") →
      o.kite_dof = 3 ∨ o.kite_dof = 6 →
      generate_structure o a =
        .error (.valueError [pstr ("invalid tether control variable chosen")])) := by
  constructor
  · intro o a h3 h6
    simp [generate_structure, kite_templates, h3, h6, exbind_error]
  · intro o a t1 t2 hdof
    rcases hdof with h | h <;>
      simp [generate_structure, kite_templates, h, t1, t2, exbind_ok]

/-- Claim C7, witness: both failure modes at concrete inputs. -/
theorem C7_invalid_options_raise_valueerror_witness :
    generate_structure badDofOpts arch3 =
      .error (.valueError [pstr ("kite dof option %s not inluded at present"),
                           natStr badDofOpts.kite_dof]) ∧
    generate_structure badTetherOpts arch3 =
      .error (.valueError [pstr ("invalid tether control variable chosen")]) :=
  ⟨C7_invalid_options_raise_valueerror.1 badDofOpts arch3 (by decide) (by decide),
   C7_invalid_options_raise_valueerror.2 badTetherOpts arch3 (by decide) (by decide)
     (Or.inl (by decide))⟩

/-- Claim C8 (code bug): on the failing input — multiple shooting, two
nodes, the single node's sampled heights all `−1` (negative, as
witnessed by the `pyNpMin` conjunct) — `test_variables` reports
`min_node_height = True`, where the claim (and the warning the code
itself logs on line 196) requires `False`: the trailing `else` of line
202 overwrites the recorded failure. -/
theorem C8_negative_height_reported_true :
    (test_variables msDisc 2 (fun _ => 0) negHeights emptyHeights emptyResults).map
      (fun r => r (pstr ("min_node_height"))) = .ok (some true) ∧
    pyNpMin (negHeights (pstr ("q10"))) = .ok (-1) ∧ ((-1 : ℚ) < 0) := by decide

/-- Claim C9, counterexample: `build` on an already-built NLP returns
`None`, not the existing schema — the return value is `none` while the
state's built contents (`builtNLP.V = some 1`) are left in place. -/
theorem C9_build_returns_none_counterexample :
    nlp_build builtNLP modelOK formulationOK envNLP = .ok (none, builtNLP) ∧
    ¬ nlp_build builtNLP modelOK formulationOK envNLP = .ok (builtNLP.V, builtNLP) := by
  decide

/-- Claim C9, amended: invoking `build` a second time on an already
built NLP is an idempotent no-op — it logs, returns `None` without
rebuilding, and leaves every previously constructed field (variables,
bounds, objective, timings, status) unchanged. -/
theorem C9_rebuild_is_noop {α : Type} (s : NLPState α) (m : PyModel)
    (f : PyFormulation) (env : BuildEnv α) (h : s.status = pstr ("I am an NLP.")) :
    nlp_build s m f env = .ok (none, s) := by
  simp [nlp_build, h]

/-- Claim C9, witness: the no-op on the concrete built NLP. -/
theorem C9_rebuild_is_noop_witness :
    nlp_build builtNLP modelOK formulationOK envNLP = .ok (none, builtNLP) :=
  C9_rebuild_is_noop builtNLP modelOK formulationOK envNLP (by decide)

/-- Claim C10: under `multiple_shooting`, `test_variables` ends with
`min_node_height = True` for every trajectory — even one with a node of
negative height — because each node iteration's trailing `else`
overwrites any recorded `False`. -/
theorem C10_multiple_shooting_always_true (number_of_nodes : Nat) (pm : Nat → Nat)
    (hxd hcoll : PyStr → List ℚ) (res : PyDict Bool)
    (hN : 2 ≤ number_of_nodes) (hne : ∀ s, hxd s ≠ []) :
    (test_variables msDisc number_of_nodes pm hxd hcoll res).map
      (fun r => r (pstr ("min_node_height"))) = .ok (some true) := by
  obtain ⟨r, hr, hkey⟩ :=
    tv_fold_ms pm hxd hcoll hne (List.range' 1 (number_of_nodes - 1)) res
      (by simp only [ne_eq, List.range'_eq_nil]; omega)
  unfold test_variables
  rw [hr]
  simp [Except.map, hkey]

/-- Claim C10, witness: the always-`True` report on a concrete
negative-height trajectory. -/
theorem C10_multiple_shooting_always_true_witness :
    (test_variables msDisc 2 (fun _ => 1) negHeights emptyHeights emptyResults).map
      (fun r => r (pstr ("min_node_height"))) = .ok (some true) :=
  C10_multiple_shooting_always_true 2 (fun _ => 1) negHeights emptyHeights emptyResults
    (by decide) (fun s => List.cons_ne_nil _ _)

/-- Successful lookup of an association key yields a member pair. -/
theorem lookup_some_mem {β : Type} (l : List (PyStr × β)) (k : PyStr) (v : β)
    (h : List.lookup k l = some v) : (k, v) ∈ l := by
  induction l with
  | nil => cases h
  | cons a t ih =>
    obtain ⟨k', v'⟩ := a
    by_cases hk : k = k'
    · subst hk
      simp [List.lookup] at h
      rw [h]
      exact List.mem_cons_self _ _
    · have hbeq : (k == k') = false := beq_eq_false_iff_ne.mpr hk
      simp only [List.lookup, hbeq] at h
      exact List.mem_cons_of_mem _ (ih h)

/-- The loop-carried `np.max([new, acc])` fold equals the plain max fold. -/
theorem foldl_max_swap (l : List ℚ) : ∀ a, l.foldl (fun m x => max x m) a = l.foldl max a := by
  induction l with
  | nil => intro a; rfl
  | cons x t ih =>
    intro a
    simp only [List.foldl_cons]
    rw [max_comm, ih]

/-- A guarded fold equals the fold of the filtered list. -/
theorem foldl_if_filter {α β : Type} (p : α → Bool) (f : β → α → β) :
    ∀ (l : List α) (b : β),
      l.foldl (fun acc x => if p x then f acc x else acc) b = (l.filter p).foldl f b := by
  intro l
  induction l with
  | nil => intro b; rfl
  | cons x t ih =>
    intro b
    by_cases hp : p x
    · simp [List.foldl_cons, List.filter_cons, hp, ih]
    · simp [List.foldl_cons, List.filter_cons, hp, ih]

/-- `np.max(np.abs(·))` on a nonempty series succeeds with the total
version's value. -/
theorem pyMaxAbs_ok (l : List ℚ) (h : l ≠ []) : pyMaxAbs l = .ok (maxAbsQ l) := by
  cases l with
  | nil => exact absurd rfl h
  | cons x xs => rfl

/-- The name-scanning fold of the power-balance node loop: it succeeds
and its running maximum is the fold over the suffix-matching terms. -/
theorem power_node_scan_general (pb : List (PyStr × List ℚ)) (node : Nat)
    (hser : ∀ ent ∈ pb, ent.2 ≠ []) :
    ∀ (acc : ℚ × List ℚ), ∃ P,
      pb.foldlM (fun acc ent =>
        if suffix_matches ent.1 node then do
          let m ← pyMaxAbs ent.2
          pure (max m acc.1, listAddQ acc.2 ent.2)
        else pure acc) acc = .ok
        (((pb.filter (fun ent => suffix_matches ent.1 node)).map
            (fun ent => maxAbsQ ent.2)).foldl (fun m x => max x m) acc.1, P) := by
  induction pb with
  | nil => intro acc; exact ⟨acc.2, rfl⟩
  | cons ent t ih =>
    intro acc
    have hser' : ∀ e ∈ t, e.2 ≠ [] := fun e he => hser e (List.mem_cons_of_mem _ he)
    by_cases hp : suffix_matches ent.1 node
    · obtain ⟨P, hP⟩ := ih hser' (max (maxAbsQ ent.2) acc.1, listAddQ acc.2 ent.2)
      refine ⟨P, ?_⟩
      simp only [List.foldlM_cons, hp, if_true, pyMaxAbs_ok ent.2 (hser ent (List.mem_cons_self _ _)),
        exbind_ok, List.filter_cons, List.map_cons, List.foldl_cons]
      exact hP
    · obtain ⟨P, hP⟩ := ih hser' acc
      refine ⟨P, ?_⟩
      have hp' : suffix_matches ent.1 node = false := by
        simpa using hp
      simp only [List.foldlM_cons, hp', if_false, List.filter_cons, Bool.false_eq_true]
      simpa [hp'] using hP

/-- The child-subtraction fold of the power-balance node loop: it
succeeds when every child's tether key is present, and its running
maximum folds in the children's tether maxima. -/
theorem children_fold_general (pb : List (PyStr × List ℚ))
    (hser : ∀ ent ∈ pb, ent.2 ≠ []) :
    ∀ (children : List Nat),
      (∀ c ∈ children, (List.lookup (pstr ("P_tether") ++ natStr c) pb).isSome = true) →
      ∀ (acc : ℚ × List ℚ), ∃ P,
        children.foldlM (fun acc child => do
            let series ← dictGet pb (pstr ("P_tether") ++ natStr child)
            let m ← pyMaxAbs series
            pure (max m acc.1, listSubQ acc.2 series)) acc = .ok
          ((children.map (fun child =>
              maxAbsQ ((List.lookup (pstr ("P_tether") ++ natStr child) pb).getD []))).foldl
            (fun m x => max x m) acc.1, P) := by
  intro children
  induction children with
  | nil => intro _ acc; exact ⟨acc.2, rfl⟩
  | cons c t ih =>
    intro hc acc
    obtain ⟨s, hs⟩ : ∃ s, List.lookup (pstr ("P_tether") ++ natStr c) pb = some s :=
      Option.isSome_iff_exists.mp (hc c (List.mem_cons_self _ _))
    have hmem := lookup_some_mem pb _ s hs
    have hsne : s ≠ [] := hser _ hmem
    have hdg : dictGet pb (pstr ("P_tether") ++ natStr c) = .ok s := (dictGet_ok _ _ _).mpr hs
    obtain ⟨P, hP⟩ := ih (fun c' hc' => hc c' (List.mem_cons_of_mem _ hc'))
      (max (maxAbsQ s) acc.1, listSubQ acc.2 s)
    refine ⟨P, ?_⟩
    simp only [List.foldlM_cons, hdg, exbind_ok, pyMaxAbs_ok s hsne, List.map_cons,
      List.foldl_cons, hs, Option.getD_some]
    exact hP

/-- One full node iteration of `test_power_balance` succeeds and its
largest observed power is exactly `claim_node_max`. -/
theorem power_node_step_eq (pb : List (PyStr × List ℚ)) (cm : List (Nat × List Nat))
    (T : Nat) (node : Nat)
    (hser : ∀ ent ∈ pb, ent.2 ≠ [])
    (hchild : ∀ children, List.lookup node cm = some children →
       ∀ c ∈ children, (List.lookup (pstr ("P_tether") ++ natStr c) pb).isSome = true) :
    ∃ P, power_node_step pb cm T node = .ok (claim_node_max pb cm node, P) := by
  obtain ⟨P1, h1⟩ := power_node_scan_general pb node hser ((0 : ℚ), List.replicate T (0 : ℚ))
  unfold power_node_step power_node_scan
  rw [h1, exbind_ok]
  dsimp only
  unfold power_node_children
  cases hcm : List.lookup node cm with
  | none =>
    refine ⟨P1, ?_⟩
    simp only [claim_node_max, hcm, Option.getD_none, List.map_nil, List.append_nil]
    rw [foldl_max_swap]
  | some children =>
    obtain ⟨P2, h2⟩ := children_fold_general pb hser children (hchild children hcm)
      (((pb.filter (fun ent => suffix_matches ent.1 node)).map
          (fun ent => maxAbsQ ent.2)).foldl (fun m x => max x m) 0, P1)
    refine ⟨P2, ?_⟩
    dsimp only
    rw [h2]
    simp only [claim_node_max, hcm, Option.getD_some]
    rw [List.foldl_append, foldl_max_swap, foldl_max_swap]

/-- The balance loop over any node list succeeds and carries the
running maximum of the per-node `claim_node_max` values. -/
theorem balance_fold_general (pb : List (PyStr × List ℚ)) (cm : List (Nat × List Nat))
    (T : Nat) (hser : ∀ ent ∈ pb, ent.2 ≠ []) :
    ∀ (nodes : List Nat),
      (∀ node ∈ nodes, ∀ children, List.lookup node cm = some children →
        ∀ c ∈ children, (List.lookup (pstr ("P_tether") ++ natStr c) pb).isSome = true) →
      ∀ (acc : List (PyStr × NpFloat) × ℚ), ∃ bl,
        nodes.foldlM (power_balance_node_fold pb cm T) acc =
          .ok (bl, (nodes.map (claim_node_max pb cm)).foldl (fun a x => max x a) acc.2) := by
  intro nodes
  induction nodes with
  | nil => intro _ acc; exact ⟨acc.1, rfl⟩
  | cons n t ih =>
    intro hc acc
    obtain ⟨P, hP⟩ := power_node_step_eq pb cm T n hser (hc n (List.mem_cons_self _ _))
    obtain ⟨bl, hbl⟩ := ih (fun n' hn' => hc n' (List.mem_cons_of_mem _ hn'))
      (acc.1 ++ [(natStr n, npDiv (vnorm P) ((claim_node_max pb cm n : ℚ) : ℝ))],
       max (claim_node_max pb cm n) acc.2)
    refine ⟨bl, ?_⟩
    simp only [List.foldlM_cons, power_balance_node_fold, hP, exbind_ok, List.map_cons,
      List.foldl_cons]
    exact hbl

/-- The balance record of a numpy ratio with a nonzero (finite)
denominator is the record of the exact real ratio. -/
theorem npDiv_fin_report (num den tresh : ℝ) (h : den ≠ 0) :
    (if (npDiv num den).gtR tresh then false else true) =
      (if num / den > tresh then false else true) := by
  unfold npDiv
  rw [if_neg h]
  simp only [NpFloat.gtR, decide_eq_true_eq]

/-- Claim C3, counterexample: on `pbZ` (a nonempty power-balance table
whose only term, `P_other`, matches no node suffix) the largest
node-level power magnitude is `0`; the code's numpy division
`norm(P_total)/0` yields `inf` and line 255 records the `total` entry
`False`, although the claimed criterion — the ratio of the norm of the
system total to that maximum exceeding the threshold — does not hold
(there is no finite ratio; in exact real arithmetic the division by
zero is `0`, which does not exceed the threshold `2`). -/
theorem C3_total_zero_power_counterexample :
    (test_power_balance 1 pbZ 2 [] 2 emptyResults).map
        (fun r => r (pstr ("energy_balancetotal"))) = .ok (some false) ∧
      ¬ (vnorm (claim_system_total pbZ 1) /
           ((claim_max_system_power pbZ [] 2 : ℚ) : ℝ) > 2) := by
  have hM : claim_max_system_power pbZ [] 2 = 0 := by
    unfold claim_max_system_power
    have hr : List.range' 1 (2 - 1) = [1] := rfl
    have h1 : claim_node_max pbZ [] 1 = 0 := rfl
    rw [hr, List.map_cons, List.map_nil, h1, List.foldl_cons, List.foldl_nil, max_self]
  constructor
  · have hfold : (List.range' 1 (2 - 1)).foldlM (power_balance_node_fold pbZ [] 1)
        (([] : List (PyStr × NpFloat)), (0 : ℚ)) =
        .ok ([(natStr 1, npDiv (vnorm [(0 : ℚ)]) ((0 : ℚ) : ℝ))], max (0 : ℚ) 0) := rfl
    have hsys : pbZ.foldl (fun P ent => if sys_term_pred ent.1 then listAddQ P ent.2 else P)
        (List.replicate 1 (0 : ℚ)) = [(0 : ℚ) + 5] := rfl
    have hnum : (0 : ℝ) < vnorm [(0 : ℚ) + 5] := by
      unfold vnorm
      rw [Real.sqrt_pos]
      norm_num [List.map_cons, List.map_nil, List.sum_cons, List.sum_nil]
    have hden : ((max (0 : ℚ) 0 : ℚ) : ℝ) = 0 := by rw [max_self]; norm_num
    have hinf : npDiv (vnorm [(0 : ℚ) + 5]) ((max (0 : ℚ) 0 : ℚ) : ℝ) = NpFloat.inf := by
      unfold npDiv
      rw [if_pos hden, if_neg (ne_of_gt hnum), if_pos hnum]
    have hkey : pstr ("energy_balancetotal") = pstr ("energy_balance") ++ pstr ("total") := by
      decide
    unfold test_power_balance
    rw [hfold, exbind_ok]
    dsimp only
    rw [hsys]
    simp only [Except.map, List.foldl_append, List.foldl_cons, List.foldl_nil, balance_report,
      dset, ← hkey, if_pos]
    rw [hinf]
    rfl
  · rw [hM]
    push_cast
    rw [div_zero]
    norm_num

/-- Claim C3, amended: in the system-wide balance of
`test_power_balance`, a named power term is summed into the system
total exactly when its name does not begin with `P_tether`, or is
exactly `P_tether1`, or begins with `P_tetherdrag` (this is
`claim_system_total`); the norm of that total is divided by the largest
single node-level power magnitude observed anywhere in the tree
(`claim_max_system_power`); and — provided that maximum is nonzero, so
the numpy division is an exact real ratio rather than `inf`/`nan` — the
resulting `total` balance entry is reported `False` exactly when this
ratio exceeds `power_balance_tresh`. -/
theorem C3_system_power_balance_total (T : Nat) (pb : List (PyStr × List ℚ)) (N : Nat)
    (cm : List (Nat × List Nat)) (tresh : ℝ) (res : PyDict Bool)
    (hser : ∀ ent ∈ pb, ent.2 ≠ [])
    (hchild : ∀ node ∈ List.range' 1 (N - 1), ∀ children, List.lookup node cm = some children →
       ∀ c ∈ children, (List.lookup (pstr ("P_tether") ++ natStr c) pb).isSome = true)
    (hpos : claim_max_system_power pb cm N ≠ 0) :
    (test_power_balance T pb N cm tresh res).map (fun r => r (pstr ("energy_balancetotal"))) =
      .ok (some (if vnorm (claim_system_total pb T) /
                   ((claim_max_system_power pb cm N : ℚ) : ℝ) > tresh
                 then false else true)) := by
  obtain ⟨bl, hbl⟩ := balance_fold_general pb cm T hser (List.range' 1 (N - 1)) hchild
    (([] : List (PyStr × NpFloat)), (0 : ℚ))
  have hden : ((claim_max_system_power pb cm N : ℚ) : ℝ) ≠ 0 := by
    exact_mod_cast hpos
  unfold test_power_balance
  rw [hbl, exbind_ok]
  dsimp only
  have hkey : pstr ("energy_balancetotal") = pstr ("energy_balance") ++ pstr ("total") := by
    decide
  simp only [Except.map, List.foldl_append, List.foldl_cons, List.foldl_nil, balance_report,
    dset, ← hkey, if_pos]
  rw [foldl_if_filter, foldl_max_swap]
  exact congrArg (fun v => (Except.ok (some v) : Except PyError (Option Bool)))
    (npDiv_fin_report (vnorm (claim_system_total pb T))
      ((claim_max_system_power pb cm N : ℚ) : ℝ) tresh hden)

/-- Claim C3, witness: the one-term table `pbW` on a two-node tree
(whose maximum node-level power magnitude is `1`, nonzero). -/
theorem C3_system_power_balance_total_witness :
    (test_power_balance 1 pbW 2 [] 2 emptyResults).map
      (fun r => r (pstr ("energy_balancetotal"))) =
      .ok (some (if vnorm (claim_system_total pbW 1) /
                   ((claim_max_system_power pbW [] 2 : ℚ) : ℝ) > 2
                 then false else true)) :=
  C3_system_power_balance_total 1 pbW 2 [] 2 emptyResults (by decide)
    (fun node _ children hlk => Option.noConfusion hlk)
    (by
      have h : claim_max_system_power pbW [] 2 = max 0 (max 0 |(1 : ℚ)|) := rfl
      rw [h]
      exact ne_of_gt (lt_max_of_lt_right (lt_max_of_lt_right (by norm_num))))

theorem dropWhile_append_all {α : Type} (p : α → Bool) (d r : List α)
    (hd : ∀ c ∈ d, p c = true) : (d ++ r).dropWhile p = r.dropWhile p := by
  induction d with
  | nil => rfl
  | cons c t ih =>
    rw [List.cons_append, List.dropWhile_cons_of_pos (hd c (List.mem_cons_self _ _))]
    exact ih (fun c' hc' => hd c' (List.mem_cons_of_mem _ hc'))

theorem takeWhile_append_all {α : Type} (p : α → Bool) (d r : List α)
    (hd : ∀ c ∈ d, p c = true) : (d ++ r).takeWhile p = d ++ r.takeWhile p := by
  induction d with
  | nil => rfl
  | cons c t ih =>
    rw [List.cons_append, List.takeWhile_cons_of_pos (hd c (List.mem_cons_self _ _)),
      ih (fun c' hc' => hd c' (List.mem_cons_of_mem _ hc')), List.cons_append]

theorem takeWhile_eq_nil_of_dropWhile_self {α : Type} (p : α → Bool) (l : List α)
    (h : l.dropWhile p = l) : l.takeWhile p = [] := by
  cases l with
  | nil => rfl
  | cons c t =>
    by_cases hp : p c
    · rw [List.dropWhile_cons_of_pos hp] at h
      have hlen : (t.dropWhile p).length ≤ t.length :=
        (List.dropWhile_sublist p).length_le
      rw [h] at hlen
      simp at hlen
    · rw [List.takeWhile_cons_of_neg hp]

theorem parseKey_append (b s : PyStr) (hb : noTrailingDigit b = true)
    (hs : allDigits s = true) : parseKey (b ++ s) = (b, s) := by
  have hb' : b.reverse.dropWhile Char.isDigit = b.reverse := by
    simpa [noTrailingDigit] using hb
  have hsrev : ∀ c ∈ s.reverse, Char.isDigit c = true := by
    intro c hc
    have : c ∈ s := List.mem_reverse.mp hc
    exact List.all_eq_true.mp hs c this
  unfold parseKey
  rw [List.reverse_append]
  rw [dropWhile_append_all _ s.reverse b.reverse hsrev, hb']
  rw [takeWhile_append_all _ s.reverse b.reverse hsrev]
  rw [takeWhile_eq_nil_of_dropWhile_self _ _ hb']
  simp

theorem parseKey_pure (g : PyStr) (hg : noTrailingDigit g = true) : parseKey g = (g, []) := by
  have := parseKey_append g [] hg rfl
  simpa using this

theorem nodup_render_scheme :
    ∀ (specs : List (List PyStr × PyStr)) (globals : List PyStr),
      (∀ sp ∈ specs, sp.1.Nodup ∧ (∀ b ∈ sp.1, noTrailingDigit b = true) ∧
        allDigits sp.2 = true ∧ sp.2 ≠ []) →
      ((specs.map Prod.snd).Nodup) →
      globals.Nodup → (∀ g ∈ globals, noTrailingDigit g = true) →
      (specs.flatMap renderSpec ++ globals).Nodup := by
  intro specs
  induction specs with
  | nil =>
    intro globals _ _ h3 _
    simpa using h3
  | cons sp rest ih =>
    intro globals h1 h2 h3 h4
    rw [List.flatMap_cons, List.append_assoc]
    have hsp := h1 sp (List.mem_cons_self _ _)
    have h2' : sp.2 ∉ rest.map Prod.snd ∧ (rest.map Prod.snd).Nodup := by
      rw [List.map_cons, List.nodup_cons] at h2
      exact h2
    apply List.Nodup.append
    · unfold renderSpec
      refine List.Nodup.map_on ?_ hsp.1
      intro x _ y _ hxy
      exact List.append_cancel_right hxy
    · exact ih globals (fun sp' hsp' => h1 sp' (List.mem_cons_of_mem _ hsp')) h2'.2 h3 h4
    · intro x hx hx'
      unfold renderSpec at hx
      obtain ⟨b, hb, rfl⟩ := List.mem_map.mp hx
      have hkey : parseKey (b ++ sp.2) = (b, sp.2) :=
        parseKey_append _ _ (hsp.2.1 b hb) hsp.2.2.1
      rcases List.mem_append.mp hx' with hxr | hxg
      · obtain ⟨sp', hsp'mem, hxsp'⟩ := List.mem_flatMap.mp hxr
        unfold renderSpec at hxsp'
        obtain ⟨b', hb', heq⟩ := List.mem_map.mp hxsp'
        have hsp' := h1 sp' (List.mem_cons_of_mem _ hsp'mem)
        have hkey' : parseKey (b' ++ sp'.2) = (b', sp'.2) :=
          parseKey_append _ _ (hsp'.2.1 b' hb') hsp'.2.2.1
        have hpair : (b', sp'.2) = (b, sp.2) := by
          rw [← hkey, ← hkey', heq]
        rw [Prod.mk.injEq] at hpair
        exact h2'.1 (hpair.2 ▸ List.mem_map_of_mem Prod.snd hsp'mem)
      · have hpure : parseKey (b ++ sp.2) = (b ++ sp.2, []) := parseKey_pure _ (h4 _ hxg)
        rw [hkey, Prod.mk.injEq] at hpure
        exact hsp.2.2.2 hpure.2

theorem natStr_single (n : Nat) (h : n ≤ 9) : natStr n = [Nat.digitChar n] := by
  interval_cases n <;> rfl

theorem natStr_allDigits (n : Nat) (h : n ≤ 9) : allDigits (natStr n) = true := by
  interval_cases n <;> rfl

theorem natStr_ne_nil (n : Nat) (h : n ≤ 9) : natStr n ≠ [] := by
  interval_cases n <;> decide

theorem digitChar_inj9 : ∀ n < 10, ∀ m < 10, Nat.digitChar n = Nat.digitChar m → n = m := by
  decide

theorem natStr_inj9 (n m : Nat) (hn : n ≤ 9) (hm : m ≤ 9) (h : natStr n = natStr m) :
    n = m := by
  rw [natStr_single n hn, natStr_single m hm] at h
  simp only [List.cons.injEq, and_true] at h
  exact digitChar_inj9 n (by omega) m (by omega) h

theorem nodeSfx_single (a : Architecture) (n : Nat) (hn : n ≤ 9)
    (hp : a.parent_map n ≤ 9) :
    nodeSfx a n = [Nat.digitChar n, Nat.digitChar (a.parent_map n)] := by
  unfold nodeSfx
  rw [natStr_single n hn, natStr_single _ hp]
  rfl

theorem nodup_schema_ids (a : Architecture) (nodes : List Nat)
    (hnodes_nodup : nodes.Nodup)
    (hn9 : ∀ n ∈ nodes, n ≤ 9 ∧ a.parent_map n ≤ 9)
    (hlay_nodup : a.layer_nodes.Nodup)
    (hl9 : ∀ l ∈ a.layer_nodes, l ≤ 9)
    (kB tB G aB : List PyStr)
    (hkB : kB.Nodup ∧ ∀ b ∈ kB, noTrailingDigit b = true)
    (htB : tB.Nodup ∧ ∀ b ∈ tB, noTrailingDigit b = true)
    (hG : G.Nodup ∧ ∀ g ∈ G, noTrailingDigit g = true)
    (haB : aB.Nodup ∧ ∀ b ∈ aB, noTrailingDigit b = true) :
    (nodes.flatMap (fun n =>
        renderSpec (if n ∈ a.kite_nodes then kB else tB, nodeSfx a n)) ++ G ++
      a.layer_nodes.flatMap (fun l => renderSpec (aB, natStr l))).Nodup := by
  have hA : nodes.flatMap (fun n =>
      renderSpec (if n ∈ a.kite_nodes then kB else tB, nodeSfx a n)) =
      (nodes.map (fun n =>
        ((if n ∈ a.kite_nodes then kB else tB : List PyStr), nodeSfx a n))).flatMap renderSpec := by
    rw [List.flatMap_map]
  have hB : a.layer_nodes.flatMap (fun l => renderSpec (aB, natStr l)) =
      (a.layer_nodes.map (fun l => (aB, natStr l))).flatMap renderSpec := by
    rw [List.flatMap_map]
  rw [hA, hB, List.append_assoc]
  set specs1 := nodes.map (fun n =>
    ((if n ∈ a.kite_nodes then kB else tB : List PyStr), nodeSfx a n)) with hspecs1
  set specs2 := a.layer_nodes.map (fun l => (aB, natStr l)) with hspecs2
  have hscheme := nodup_render_scheme (specs1 ++ specs2) G ?h1 ?h2 hG.1 hG.2
  case h1 =>
    intro sp hsp
    rcases List.mem_append.mp hsp with hsp1 | hsp2
    · obtain ⟨n, hn, rfl⟩ := List.mem_map.mp hsp1
      obtain ⟨hn9', hp9⟩ := hn9 n hn
      refine ⟨?_, ?_, ?_, ?_⟩
      · by_cases hk : n ∈ a.kite_nodes <;> simp [hk, hkB.1, htB.1]
      · intro b hb
        by_cases hk : n ∈ a.kite_nodes
        · simp only [hk, if_true] at hb; exact hkB.2 b hb
        · simp only [hk, if_false] at hb; exact htB.2 b hb
      · show allDigits (nodeSfx a n) = true
        unfold nodeSfx
        simp only [allDigits, List.all_append]
        rw [show (natStr n).all Char.isDigit = true from natStr_allDigits n hn9',
          show (natStr (a.parent_map n)).all Char.isDigit = true from natStr_allDigits _ hp9]
        rfl
      · show nodeSfx a n ≠ []
        unfold nodeSfx
        intro hcontra
        exact natStr_ne_nil n hn9' (List.append_eq_nil.mp hcontra).1
    · obtain ⟨l, hl, rfl⟩ := List.mem_map.mp hsp2
      exact ⟨haB.1, haB.2, natStr_allDigits l (hl9 l hl), natStr_ne_nil l (hl9 l hl)⟩
  case h2 =>
    rw [List.map_append]
    apply List.Nodup.append
    · rw [hspecs1, List.map_map]
      refine List.Nodup.map_on ?_ hnodes_nodup
      intro n hn m hm hnm
      obtain ⟨hn9', hpn⟩ := hn9 n hn
      obtain ⟨hm9', hpm⟩ := hn9 m hm
      simp only [Function.comp] at hnm
      rw [nodeSfx_single a n hn9' hpn, nodeSfx_single a m hm9' hpm] at hnm
      simp only [List.cons.injEq, and_true] at hnm
      exact digitChar_inj9 n (by omega) m (by omega) hnm.1
    · rw [hspecs2, List.map_map]
      refine List.Nodup.map_on ?_ hlay_nodup
      intro l hl l' hl' hll
      simp only [Function.comp] at hll
      exact natStr_inj9 l l' (hl9 l hl) (hl9 l' hl') hll
    · intro x hx1 hx2
      rw [hspecs1, List.map_map] at hx1
      rw [hspecs2, List.map_map] at hx2
      obtain ⟨n, hn, rfl⟩ := List.mem_map.mp hx1
      obtain ⟨l, hl, heq⟩ := List.mem_map.mp hx2
      obtain ⟨hn9', hpn⟩ := hn9 n hn
      simp only [Function.comp] at heq
      rw [natStr_single l (hl9 l hl)] at heq
      have : ([Nat.digitChar l] : PyStr).length = (nodeSfx a n).length := by rw [heq]
      rw [nodeSfx_single a n hn9' hpn] at this
      simp at this
  have hperm : List.Perm
      ((specs1.flatMap renderSpec) ++ (specs2.flatMap renderSpec ++ G))
      ((specs1.flatMap renderSpec) ++ (G ++ specs2.flatMap renderSpec)) :=
    List.Perm.append_left _ List.perm_append_comm
  apply hperm.nodup
  rw [← List.append_assoc, ← List.flatMap_append]
  exact hscheme

theorem flatMap_nil_fun {α : Type} (l : List α) :
    (l.flatMap (fun _ => ([] : List PyStr))) = [] := by
  induction l with
  | nil => rfl
  | cons a t ih => simp [List.flatMap_cons, ih]

theorem nodup_schema_ids_nolayer (a : Architecture) (nodes : List Nat)
    (hnodes_nodup : nodes.Nodup)
    (hn9 : ∀ n ∈ nodes, n ≤ 9 ∧ a.parent_map n ≤ 9)
    (hlay_nodup : a.layer_nodes.Nodup)
    (hl9 : ∀ l ∈ a.layer_nodes, l ≤ 9)
    (kB tB G : List PyStr)
    (hkB : kB.Nodup ∧ ∀ b ∈ kB, noTrailingDigit b = true)
    (htB : tB.Nodup ∧ ∀ b ∈ tB, noTrailingDigit b = true)
    (hG : G.Nodup ∧ ∀ g ∈ G, noTrailingDigit g = true) :
    (nodes.flatMap (fun n =>
        renderSpec (if n ∈ a.kite_nodes then kB else tB, nodeSfx a n)) ++ G).Nodup := by
  have h := nodup_schema_ids a nodes hnodes_nodup hn9 hlay_nodup hl9 kB tB G []
    hkB htB hG (by constructor <;> simp)
  have hempty : a.layer_nodes.flatMap (fun l => renderSpec (([] : List PyStr), natStr l)) = [] := by
    have : (fun l => renderSpec (([] : List PyStr), natStr l)) =
        (fun _ : Nat => ([] : List PyStr)) := by
      funext l; rfl
    rw [this, flatMap_nil_fun]
  rw [hempty, List.append_nil] at h
  exact h

theorem kite_templates_ok_facts (o : SysOptions) (ks kc : List VarEntry)
    (h : kite_templates o = .ok (ks, kc)) :
    ((ks.map Prod.fst).Nodup ∧ ∀ b ∈ ks.map Prod.fst, noTrailingDigit b = true) ∧
    ((kc.map Prod.fst).Nodup ∧ ∀ b ∈ kc.map Prod.fst, noTrailingDigit b = true) := by
  by_cases h3 : o.kite_dof = 3
  · simp [kite_templates, h3] at h
    obtain ⟨rfl, rfl⟩ := h
    decide
  · by_cases h6 : o.kite_dof = 6
    · by_cases hs0 : o.surface_control = 0
      · simp [kite_templates, h3, h6, hs0] at h
        obtain ⟨rfl, rfl⟩ := h
        decide
      · by_cases hs1 : o.surface_control = 1
        · simp [kite_templates, h3, h6, hs0, hs1] at h
          obtain ⟨rfl, rfl⟩ := h
          decide
        · simp [kite_templates, h3, h6, hs0, hs1] at h
          obtain ⟨rfl, rfl⟩ := h
          decide
    · simp [kite_templates, h3, h6] at h

theorem node_loop_states_ids (a : Architecture) (ks kc : List VarEntry) :
    ((node_loop a ks kc).1).map Prod.fst =
      (List.range' 1 (a.number_of_nodes - 1)).flatMap (fun n =>
        renderSpec ((if n ∈ a.kite_nodes then ks.map Prod.fst else tether_states.map Prod.fst),
          nodeSfx a n)) := by
  unfold node_loop
  rw [List.map_flatMap]
  congr 1
  funext n
  by_cases hk : n ∈ a.kite_nodes <;>
    simp [hk, renderSpec, List.map_map, Function.comp]

theorem node_loop_controls_ids (a : Architecture) (ks kc : List VarEntry) :
    ((node_loop a ks kc).2.1).map Prod.fst =
      (List.range' 1 (a.number_of_nodes - 1)).flatMap (fun n =>
        renderSpec ((if n ∈ a.kite_nodes then kc.map Prod.fst else tether_controls.map Prod.fst),
          nodeSfx a n)) := by
  unfold node_loop
  rw [List.map_flatMap]
  congr 1
  funext n
  by_cases hk : n ∈ a.kite_nodes <;>
    simp [hk, renderSpec, List.map_map, Function.comp]

theorem node_loop_multipliers_ids (a : Architecture) (ks kc : List VarEntry) :
    ((node_loop a ks kc).2.2.1).map Prod.fst =
      (List.range' 1 (a.number_of_nodes - 1)).flatMap (fun n =>
        renderSpec ((if n ∈ a.kite_nodes then kite_multipliers.map Prod.fst
          else tether_multipliers.map Prod.fst), nodeSfx a n)) := by
  unfold node_loop
  rw [List.map_flatMap]
  congr 1
  funext n
  by_cases hk : n ∈ a.kite_nodes <;>
    simp [hk, renderSpec, List.map_map, Function.comp]

theorem layer_states_ids (o : SysOptions) (l : Nat) :
    (layer_states o l).map Prod.fst = renderSpec (layerStateBases o, natStr l) := by
  unfold layer_states layerStateBases renderSpec
  by_cases hs : o.steadyness = pstr ("unsteady") <;> simp [hs]

theorem layer_lifted_ids (o : SysOptions) (l : Nat) :
    (layer_lifted o l).map Prod.fst = renderSpec (layerLiftedBases o, natStr l) := by
  unfold layer_lifted layerLiftedBases renderSpec
  by_cases h1 : o.steadyness = pstr ("steady") <;> by_cases h2 : o.correct_tilt <;>
    simp [h1, h2]

theorem layerStateBases_facts (o : SysOptions) :
    (layerStateBases o).Nodup ∧ ∀ b ∈ layerStateBases o, noTrailingDigit b = true := by
  unfold layerStateBases
  by_cases hs : o.steadyness = pstr ("unsteady") <;> simp only [hs, if_true, if_false] <;> decide

theorem layerLiftedBases_facts (o : SysOptions) :
    (layerLiftedBases o).Nodup ∧ ∀ b ∈ layerLiftedBases o, noTrailingDigit b = true := by
  unfold layerLiftedBases
  by_cases h1 : o.steadyness = pstr ("steady") <;> by_cases h2 : o.correct_tilt <;>
    simp only [h1, h2, if_true, if_false] <;> decide

theorem flatMap_singleton_fun {α β : Type} (f : α → β) (l : List α) :
    l.flatMap (fun x => [f x]) = l.map f := by
  induction l with
  | nil => rfl
  | cons a t ih => simp [List.flatMap_cons, ih]

theorem varrho_ids (a : Architecture) :
    ((a.kite_nodes.map (fun kite =>
        ((pstr ("varrho") ++ natStr kite ++ natStr (a.parent_map kite)), ((1, 1) : Nat × Nat)))).map
      Prod.fst) =
      a.kite_nodes.flatMap (fun k =>
        renderSpec (if k ∈ a.kite_nodes then [pstr ("varrho")] else [pstr ("varrho")],
          nodeSfx a k)) := by
  simp only [ite_self, renderSpec, List.map_map, List.map_cons, List.map_nil]
  rw [flatMap_singleton_fun]
  congr 1

theorem extend_aero_states_ids (o : SysOptions) (a : Architecture)
    (lifted states : List VarEntry) :
    ((extend_aerodynamics o lifted states a).2).map Prod.fst =
      states.map Prod.fst ++
        (if o.induction_model = pstr ("not_in_use") then []
         else a.layer_nodes.flatMap (fun l => renderSpec (layerStateBases o, natStr l))) := by
  unfold extend_aerodynamics
  by_cases hind : o.induction_model = pstr ("not_in_use")
  · simp [hind]
  · simp only [hind, not_false_iff, if_true, if_neg, ite_not]
    simp [hind, List.map_flatMap, layer_states_ids]

theorem extend_aero_lifted_ids (o : SysOptions) (a : Architecture)
    (states : List VarEntry) :
    ((extend_aerodynamics o [] states a).1).map Prod.fst =
      (if o.induction_model = pstr ("not_in_use") then []
       else a.kite_nodes.flatMap (fun k =>
          renderSpec (if k ∈ a.kite_nodes then [pstr ("varrho")] else [pstr ("varrho")],
            nodeSfx a k)) ++
         a.layer_nodes.flatMap (fun l => renderSpec (layerLiftedBases o, natStr l))) := by
  unfold extend_aerodynamics
  by_cases hind : o.induction_model = pstr ("not_in_use")
  · simp [hind]
  · simp only [hind, if_neg, not_false_iff, if_true, ite_not]
    simp only [List.nil_append, List.map_append, List.map_flatMap, layer_lifted_ids]
    rw [varrho_ids]

theorem states_nodup_master (o : SysOptions) (a : Architecture)
    (hn9 : ∀ n ∈ List.range' 1 (a.number_of_nodes - 1), n ≤ 9 ∧ a.parent_map n ≤ 9)
    (hlnodup : a.layer_nodes.Nodup) (hl9 : ∀ l ∈ a.layer_nodes, l ≤ 9)
    (ksB : List PyStr) (hksB : ksB.Nodup ∧ ∀ b ∈ ksB, noTrailingDigit b = true)
    (G : List PyStr) (hG : G.Nodup ∧ ∀ g ∈ G, noTrailingDigit g = true) :
    ((List.range' 1 (a.number_of_nodes - 1)).flatMap (fun n =>
        renderSpec (if n ∈ a.kite_nodes then ksB else tether_states.map Prod.fst,
          nodeSfx a n)) ++ G ++
      (if o.induction_model = pstr ("not_in_use") then []
       else a.layer_nodes.flatMap (fun l => renderSpec (layerStateBases o, natStr l)))).Nodup := by
  have htB : (tether_states.map Prod.fst).Nodup ∧
      ∀ b ∈ tether_states.map Prod.fst, noTrailingDigit b = true := by decide
  by_cases hind : o.induction_model = pstr ("not_in_use")
  · rw [if_pos hind, List.append_nil]
    exact nodup_schema_ids_nolayer a _ (List.nodup_range' 1 _) hn9 hlnodup hl9 _ _ G hksB htB hG
  · rw [if_neg hind]
    exact nodup_schema_ids a _ (List.nodup_range' 1 _) hn9 hlnodup hl9 _ _ G _ hksB htB hG
      (layerStateBases_facts o)

theorem lifted_nodup_master (o : SysOptions) (a : Architecture)
    (hknodup : a.kite_nodes.Nodup)
    (hk9 : ∀ k ∈ a.kite_nodes, k ≤ 9 ∧ a.parent_map k ≤ 9)
    (hlnodup : a.layer_nodes.Nodup) (hl9 : ∀ l ∈ a.layer_nodes, l ≤ 9) :
    ((if o.induction_model = pstr ("not_in_use") then []
      else a.kite_nodes.flatMap (fun k =>
          renderSpec (if k ∈ a.kite_nodes then [pstr ("varrho")] else [pstr ("varrho")],
            nodeSfx a k)) ++
        a.layer_nodes.flatMap (fun l =>
          renderSpec (layerLiftedBases o, natStr l))) : List PyStr).Nodup := by
  by_cases hind : o.induction_model = pstr ("not_in_use")
  · rw [if_pos hind]; exact List.nodup_nil
  · rw [if_neg hind]
    have h := nodup_schema_ids a a.kite_nodes hknodup hk9 hlnodup hl9
      [pstr ("varrho")] [pstr ("varrho")] [] (layerLiftedBases o)
      (by decide) (by decide) (by constructor <;> simp) (layerLiftedBases_facts o)
    rwa [List.append_nil] at h

theorem nodup_map_dprefix (l : List PyStr) (h : l.Nodup) :
    (l.map (fun s => pstr ("d") ++ s)).Nodup := by
  refine List.Nodup.map_on ?_ h
  intro x _ y _ hxy
  simpa [pstr] using hxy

theorem getD_ite_nodup (L : List VarEntry) (h : (L.map Prod.fst).Nodup) :
    ((((if L = [] then none else some L) : Option (List VarEntry)).getD []).map
      Prod.fst).Nodup := by
  by_cases hL : L = [] <;> simp [hL, h]

set_option maxHeartbeats 1000000 in
/-- Claim C2, amended: for every valid architecture with single-digit
node indices (`number_of_nodes ≤ 10`) and every mode configuration on
which `generate_structure` succeeds, the identifiers are unique *within*
each emitted table (states, derivatives, controls, multipliers,
parameters, and the lifted table when present).  Across tables
identifiers do repeat — every derivative is `'d' +` a state identifier —
and for multi-digit node indices even within-table uniqueness fails, as
the counterexample shows. -/
theorem C2_within_table_unique (o : SysOptions) (a : Architecture)
    (tbl : SystemVarsList) (gc : List PyStr)
    (hv : validArch a = true) (hN : a.number_of_nodes ≤ 10)
    (hgen : generate_structure o a = .ok (tbl, gc)) :
    (tbl.xd.map Prod.fst).Nodup ∧ (tbl.xddot.map Prod.fst).Nodup ∧
    (tbl.u.map Prod.fst).Nodup ∧ (tbl.xa.map Prod.fst).Nodup ∧
    (tbl.theta.map Prod.fst).Nodup ∧ ((tbl.xl.getD []).map Prod.fst).Nodup := by
  unfold validArch at hv
  simp only [Bool.and_eq_true, List.all_eq_true, decide_eq_true_eq] at hv
  obtain ⟨⟨⟨⟨hpar, hknodup⟩, hkrange⟩, hlnodup⟩, hlrange⟩ := hv
  have hn9 : ∀ n ∈ List.range' 1 (a.number_of_nodes - 1), n ≤ 9 ∧ a.parent_map n ≤ 9 := by
    intro n hn
    have h1 := List.mem_range'_1.mp hn
    have h2 := hpar n hn
    omega
  have hl9 : ∀ l ∈ a.layer_nodes, l ≤ 9 := fun l hl => by have := hlrange l hl; omega
  have hk9 : ∀ k ∈ a.kite_nodes, k ≤ 9 ∧ a.parent_map k ≤ 9 := by
    intro k hk
    have h1 := hkrange k hk
    have hkmem : k ∈ List.range' 1 (a.number_of_nodes - 1) := List.mem_range'_1.mpr (by omega)
    exact hn9 k hkmem
  unfold generate_structure at hgen
  cases hkt : kite_templates o with
  | error e =>
    rw [hkt, exbind_error] at hgen
    cases hgen
  | ok p =>
    obtain ⟨ks, kc⟩ := p
    rw [hkt, exbind_ok] at hgen
    dsimp only at hgen
    by_cases ht1 : o.tether_control_var = pstr ("ddl_t")
    · rw [if_pos ht1] at hgen
      simp only [pure_bind] at hgen
      injection hgen with hpair
      rw [Prod.mk.injEq] at hpair
      obtain ⟨rfl, rfl⟩ := hpair
      have hksf := kite_templates_ok_facts o ks kc hkt
      have hxd : (List.map Prod.fst
          ((extend_aerodynamics o []
            (if o.integral_outputs = true then
              (node_loop a ks kc).1 ++ [(pstr ("l_t"), 1, 1), (pstr ("dl_t"), 1, 1)]
            else (node_loop a ks kc).1 ++ [(pstr ("l_t"), 1, 1), (pstr ("dl_t"), 1, 1)] ++
              [(pstr ("e"), 1, 1)]) a).2)).Nodup := by
        rw [extend_aero_states_ids]
        by_cases hio : o.integral_outputs = true
        · rw [if_pos hio, List.map_append, node_loop_states_ids]
          simp only [List.map_cons, List.map_nil]
          exact states_nodup_master o a hn9 hlnodup hl9 (ks.map Prod.fst) hksf.1
            [pstr ("l_t"), pstr ("dl_t")] (by decide)
        · rw [if_neg hio, List.map_append, List.map_append, node_loop_states_ids,
            List.append_assoc ((List.range' 1 (a.number_of_nodes - 1)).flatMap _)]
          simp only [List.map_cons, List.map_nil, List.cons_append, List.nil_append]
          exact states_nodup_master o a hn9 hlnodup hl9 (ks.map Prod.fst) hksf.1
            [pstr ("l_t"), pstr ("dl_t"), pstr ("e")] (by decide)
      refine ⟨hxd, ?_, ?_, ?_, ?_, ?_⟩
      · dsimp only
        rw [List.map_map]
        have h := nodup_map_dprefix _ hxd
        rw [List.map_map] at h
        exact h
      · dsimp only
        rw [List.map_append, node_loop_controls_ids]
        simp only [List.map_cons, List.map_nil]
        exact nodup_schema_ids_nolayer a _ (List.nodup_range' 1 _) hn9 hlnodup hl9
          (kc.map Prod.fst) (tether_controls.map Prod.fst) [pstr ("ddl_t")]
          hksf.2 (by decide) (by decide)
      · dsimp only
        rw [node_loop_multipliers_ids]
        have h := nodup_schema_ids_nolayer a _ (List.nodup_range' 1 _) hn9 hlnodup hl9
          (kite_multipliers.map Prod.fst) (tether_multipliers.map Prod.fst) []
          (by decide) (by decide) (by constructor <;> simp)
        rwa [List.append_nil] at h
      · dsimp only
        decide
      · dsimp only
        apply getD_ite_nodup
        rw [extend_aero_lifted_ids]
        exact lifted_nodup_master o a hknodup hk9 hlnodup hl9
    · by_cases ht2 : o.tether_control_var = pstr ("dddl_t")
      · rw [if_neg ht1, if_pos ht2] at hgen
        simp only [pure_bind] at hgen
        injection hgen with hpair
        rw [Prod.mk.injEq] at hpair
        obtain ⟨rfl, rfl⟩ := hpair
        have hksf := kite_templates_ok_facts o ks kc hkt
        have hxd : (List.map Prod.fst
            ((extend_aerodynamics o []
              (if o.integral_outputs = true then
                (node_loop a ks kc).1 ++ [(pstr ("l_t"), 1, 1), (pstr ("dl_t"), 1, 1)] ++
                  [(pstr ("ddl_t"), 1, 1)]
              else (node_loop a ks kc).1 ++ [(pstr ("l_t"), 1, 1), (pstr ("dl_t"), 1, 1)] ++
                [(pstr ("ddl_t"), 1, 1)] ++ [(pstr ("e"), 1, 1)]) a).2)).Nodup := by
          rw [extend_aero_states_ids]
          by_cases hio : o.integral_outputs = true
          · rw [if_pos hio]
            simp only [List.map_append, node_loop_states_ids, List.map_cons, List.map_nil,
              List.append_assoc, List.cons_append, List.nil_append]
            have hm := states_nodup_master o a hn9 hlnodup hl9 (ks.map Prod.fst) hksf.1
              [pstr ("l_t"), pstr ("dl_t"), pstr ("ddl_t")] (by decide)
            simpa only [List.append_assoc, List.cons_append, List.nil_append] using hm
          · rw [if_neg hio]
            simp only [List.map_append, node_loop_states_ids, List.map_cons, List.map_nil,
              List.append_assoc, List.cons_append, List.nil_append]
            have hm := states_nodup_master o a hn9 hlnodup hl9 (ks.map Prod.fst) hksf.1
              [pstr ("l_t"), pstr ("dl_t"), pstr ("ddl_t"), pstr ("e")] (by decide)
            simpa only [List.append_assoc, List.cons_append, List.nil_append] using hm
        refine ⟨hxd, ?_, ?_, ?_, ?_, ?_⟩
        · dsimp only
          rw [List.map_map]
          have h := nodup_map_dprefix _ hxd
          rw [List.map_map] at h
          exact h
        · dsimp only
          rw [List.map_append, node_loop_controls_ids]
          simp only [List.map_cons, List.map_nil]
          exact nodup_schema_ids_nolayer a _ (List.nodup_range' 1 _) hn9 hlnodup hl9
            (kc.map Prod.fst) (tether_controls.map Prod.fst) [pstr ("dddl_t")]
            hksf.2 (by decide) (by decide)
        · dsimp only
          rw [node_loop_multipliers_ids]
          have h := nodup_schema_ids_nolayer a _ (List.nodup_range' 1 _) hn9 hlnodup hl9
            (kite_multipliers.map Prod.fst) (tether_multipliers.map Prod.fst) []
            (by decide) (by decide) (by constructor <;> simp)
          rwa [List.append_nil] at h
        · dsimp only
          decide
        · dsimp only
          apply getD_ite_nodup
          rw [extend_aero_lifted_ids]
          exact lifted_nodup_master o a hknodup hk9 hlnodup hl9
      · rw [if_neg ht1, if_neg ht2, exbind_error] at hgen
        cases hgen

/-- Claim C2, witness: within-table uniqueness on the three-node
architecture's tables. -/
theorem C2_within_table_unique_witness :
    (tbl3.xd.map Prod.fst).Nodup ∧ (tbl3.xddot.map Prod.fst).Nodup ∧
    (tbl3.u.map Prod.fst).Nodup ∧ (tbl3.xa.map Prod.fst).Nodup ∧
    (tbl3.theta.map Prod.fst).Nodup ∧ ((tbl3.xl.getD []).map Prod.fst).Nodup :=
  C2_within_table_unique opts3 arch3 tbl3 gc3 (by decide) (by decide) (by decide)
